import Mathlib

/-!
Verification of the exam-document parser in
`src/services/mathWordParserService.ts` against its specification.

The embedding models strings as `List Char` (`Str`). JavaScript regular
expressions used by the source are embedded as hand-written scanners that
realize the exact matching semantics of each concrete pattern (leftmost
match, greedy/lazy quantifiers as they behave for that pattern, the `i`
flag via a case-folding function covering the alphabet of the patterns).
JavaScript replacement-string semantics (ECMA-262 GetSubstitution: `$$`
is an escaped literal dollar and takes precedence over `$1`) are embedded
by `getSub1`.  Scanners whose recursion is not structural take an explicit
fuel argument; the wrapper supplies `length + 1`, which over-approximates
the number of steps, so the wrapper agrees with the unbounded scanner.
-/

abbrev Str := List Char

/-- Character list of a Lean string literal. -/
def str (s : String) : Str := s.data

/-- The set recognized by JavaScript regex `\s` and by `String.prototype.trim`. -/
def isJsWs (c : Char) : Bool :=
  c = ' ' || c = '\t' || c = '\n' || c = '\r' ||
  c.toNat = 0x0b || c.toNat = 0x0c || c.toNat = 0xa0 || c.toNat = 0x1680 ||
  (0x2000 ≤ c.toNat && c.toNat ≤ 0x200a) ||
  c.toNat = 0x2028 || c.toNat = 0x2029 || c.toNat = 0x202f ||
  c.toNat = 0x205f || c.toNat = 0x3000 || c.toNat = 0xfeff

/-- JavaScript regex `.` (without the `s` flag) matches all but line terminators. -/
def notNl (c : Char) : Bool :=
  ¬ (c = '\n' || c = '\r' || c.toNat = 0x2028 || c.toNat = 0x2029)

def isDigitC (c : Char) : Bool := '0' ≤ c && c ≤ '9'

/-- Case folding used to embed the `i` flag: ASCII letters plus the uppercase
Vietnamese letters that occur in the source's patterns and marker words. -/
def jsToLower (c : Char) : Char :=
  if 'A' ≤ c && c ≤ 'Z' then Char.ofNat (c.toNat + 32)
  else if c = 'Đ' then 'đ'
  else if c = 'Ầ' then 'ầ'
  else if c = 'Ắ' then 'ắ'
  else if c = 'Ệ' then 'ệ'
  else if c = 'Ú' then 'ú'
  else if c = 'Ả' then 'ả'
  else if c = 'Ờ' then 'ờ'
  else if c = 'Â' then 'â'
  else if c = 'Ọ' then 'ọ'
  else if c = 'Ì' then 'ì'
  else if c = 'Á' then 'á'
  else c

/-- `String.prototype.toUpperCase` restricted to ASCII (all call sites in the
source upper-case strings produced by the ASCII capture classes `[A-D]`/`[a-d]`). -/
def jsToUpper (c : Char) : Char :=
  if 'a' ≤ c && c ≤ 'z' then Char.ofNat (c.toNat - 32) else c

def jsToUpperStr (s : Str) : Str := s.map jsToUpper

def dropWs (s : Str) : Str := s.dropWhile isJsWs

/-- `String.prototype.trim`. -/
def jsTrim (s : Str) : Str :=
  ((s.dropWhile isJsWs).reverse.dropWhile isJsWs).reverse

/-- `array.join(' ')`. -/
def joinSp (xs : List Str) : Str := List.intercalate [' '] xs

/-- `array.join('\n')`. -/
def joinNl (xs : List Str) : Str := List.intercalate ['\n'] xs

/-- `array.join(',')` for an array of single-letter strings. -/
def joinComma (xs : List Char) : Str := List.intersperse ',' xs

/-- Decimal digits of a natural number (`String(n)` / template interpolation). -/
def natDigits (n : Nat) : Str := (Nat.toDigits 10 n)

/-- `parseInt` on a nonempty string of decimal digits. -/
def digitsToNat (ds : Str) : Nat :=
  ds.foldl (fun a c => 10 * a + (c.toNat - '0'.toNat)) 0

/-- JavaScript truthiness of a `string | null` value: `null` and `""` are falsy. -/
def truthy (s : Option Str) : Bool :=
  match s with
  | some a => a ≠ []
  | none => false

/-- Letter class `[A-D]` under the `i` flag, written out letter by letter. -/
def isLetterAD (c : Char) : Bool :=
  c = 'A' || c = 'B' || c = 'C' || c = 'D' ||
  c = 'a' || c = 'b' || c = 'c' || c = 'd'

-- ============================================================
-- Generic pattern machinery for the section-header regexes
-- (each is a plain sequence: case-insensitive literals, `\s*`,
-- `\s+`, `\d`, and the class `[.\s]`; no alternation).
-- ============================================================

inductive PTok where
  | lit (c : Char)
  | ws0
  | ws1
  | dig
  | dotOrWs
deriving DecidableEq

/-- Match a token sequence at the start of `s`.  Greedy `\s*`/`\s+` never
needs backtracking in the embedded patterns because the token that follows
whitespace is never itself a whitespace character. -/
def matchPat : List PTok → Str → Bool
  | [], _ => true
  | .lit c :: ts, s =>
    match s with
    | x :: xs => jsToLower x = c && matchPat ts xs
    | [] => false
  | .ws0 :: ts, s => matchPat ts (dropWs s)
  | .ws1 :: ts, s =>
    match s with
    | x :: xs => isJsWs x && matchPat ts (dropWs xs)
    | [] => false
  | .dig :: ts, s =>
    match s with
    | x :: xs => isDigitC x && matchPat ts xs
    | [] => false
  | .dotOrWs :: ts, s =>
    match s with
    | x :: xs => (x = '.' || isJsWs x) && matchPat ts xs
    | [] => false

/-- Unanchored `RegExp.prototype.test`: does the pattern match at some position. -/
def searchPat (p : List PTok) : Str → Bool
  | [] => matchPat p []
  | c :: rest => matchPat p (c :: rest) || searchPat p rest

/-- Case-insensitive literal token run (pattern letters given lowercase). -/
def lits (s : String) : List PTok := s.data.map PTok.lit

-- ============================================================
-- Concrete header patterns of `detectSections` (lines 417-446)
-- and the in-loop header skips of the three part parsers.
-- ============================================================

def part1Pats : List (List PTok) :=
  [ lits "phần" ++ [.ws0, .lit '1']
  , lits "phan" ++ [.ws0, .lit '1']
  , lits "phần" ++ [.ws1, .lit 'i', .dotOrWs]
  , lits "phần" ++ [.ws0, .lit '1']
  , lits "i." ++ [.ws0] ++ lits "trắc" ++ [.ws0] ++ lits "nghiệm"
  , lits "i." ++ [.ws0] ++ lits "trac" ++ [.ws0] ++ lits "nghiem" ]

def part2Pats : List (List PTok) :=
  [ lits "phần" ++ [.ws0, .lit '2']
  , lits "phan" ++ [.ws0, .lit '2']
  , lits "phần" ++ [.ws1] ++ lits "ii" ++ [.dotOrWs]
  , lits "phần" ++ [.ws0, .lit '2']
  , lits "ii." ++ [.ws0] ++ lits "đúng" ++ [.ws0] ++ lits "sai"
  , lits "ii." ++ [.ws0] ++ lits "dung" ++ [.ws0] ++ lits "sai"
  , lits "đúng" ++ [.ws0] ++ lits "sai"
  , lits "dung" ++ [.ws0] ++ lits "sai" ]

def part3Pats : List (List PTok) :=
  [ lits "phần" ++ [.ws0, .lit '3']
  , lits "phan" ++ [.ws0, .lit '3']
  , lits "phần" ++ [.ws1] ++ lits "iii" ++ [.dotOrWs]
  , lits "phần" ++ [.ws0, .lit '3']
  , lits "iii." ++ [.ws0] ++ lits "trả" ++ [.ws0] ++ lits "lời"
  , lits "iii." ++ [.ws0] ++ lits "tra" ++ [.ws0] ++ lits "loi"
  , lits "trả" ++ [.ws0] ++ lits "lời" ++ [.ws0] ++ lits "ngắn"
  , lits "tra" ++ [.ws0] ++ lits "loi" ++ [.ws0] ++ lits "ngan" ]

def testAny (ps : List (List PTok)) (s : Str) : Bool :=
  ps.any (fun p => searchPat p s)

/-- Part-1 in-loop skip (lines 525-531):
`/PHẦN\s*\d/i || /PHAN\s*\d/i || /Trắc\s*nghiệm/i || /Trac\s*nghiem/i`. -/
def p1HeaderSkip (s : Str) : Bool :=
  searchPat (lits "phần" ++ [.ws0, .dig]) s ||
  searchPat (lits "phan" ++ [.ws0, .dig]) s ||
  searchPat (lits "trắc" ++ [.ws0] ++ lits "nghiệm") s ||
  searchPat (lits "trac" ++ [.ws0] ++ lits "nghiem") s

/-- Part-2 / part-3 in-loop skip (lines 709, 861): `/PHẦN\s*\d/i || /PHAN\s*\d/i`. -/
def p23HeaderSkip (s : Str) : Bool :=
  searchPat (lits "phần" ++ [.ws0, .dig]) s ||
  searchPat (lits "phan" ++ [.ws0, .dig]) s

-- ============================================================
-- Anchored matchers with captures
-- ============================================================

/-- Match a case-insensitive literal prefix, returning the rest. -/
def matchLits (pat : Str) (s : Str) : Option Str :=
  match pat, s with
  | [], rest => some rest
  | _ :: _, [] => none
  | p :: ps, c :: cs => if jsToLower c = p then matchLits ps cs else none

/-- Two-branch alternation `(?:p1|p2)` (the branches of every alternation in
the source start with distinct characters, so matching is deterministic). -/
def matchAlt2 (p1 p2 : Str) (s : Str) : Option Str :=
  match matchLits p1 s with
  | some r => some r
  | none => matchLits p2 s

/-- Capture of a trailing `(.*)`: greedy, `.` excludes line terminators. -/
def captureRest (s : Str) : Str := s.takeWhile notNl

/-- `text.match(/^C(?:âu|au)\s*(\d+)\s*[.:]\s*(.*)/i)` (lines 513, 700, 852):
returns (question number, raw second capture). -/
def qMatch (s : Str) : Option (Nat × Str) :=
  match s with
  | [] => none
  | c :: rest =>
    if jsToLower c = 'c' then
      match matchAlt2 (str "âu") (str "au") rest with
      | none => none
      | some r1 =>
        let r2 := dropWs r1
        let ds := r2.takeWhile isDigitC
        if ds = [] then none
        else
          let r3 := dropWs (r2.drop ds.length)
          match r3 with
          | d :: r4 =>
            if d = '.' || d = ':' then some (digitsToNat ds, captureRest (dropWs r4))
            else none
          | [] => none
    else none

/-- Case-sensitive literal prefix match (for the one pattern without the `i` flag). -/
def matchLitsCs : Str → Str → Option Str
  | [], rest => some rest
  | _ :: _, [] => none
  | p :: ps, c :: cs => if c = p then matchLitsCs ps cs else none

def matchAlt2Cs (p1 p2 s : Str) : Option Str :=
  match matchLitsCs p1 s with
  | some r => some r
  | none => matchLitsCs p2 s

/-- The case-sensitive test `/^C(?:âu|au)\s*\d+/` at line 921. -/
def qTestCs (s : Str) : Bool :=
  match s with
  | [] => false
  | c :: rest =>
    c = 'C' &&
    (match matchAlt2Cs (str "âu") (str "au") rest with
     | none => false
     | some r1 =>
       match (dropWs r1) with
       | d :: _ => isDigitC d
       | [] => false)

/-- `text.match(/^\s*([A-D])\s*[.\)]\s*(.*)/i)` (line 514) and, identically
under the `i` flag, `/^\s*([a-d])\s*[\)\.]\s*(.*)/i` (line 701): returns the
raw captured letter (case preserved) and the raw second capture. -/
def optMatch (s : Str) : Option (Char × Str) :=
  match dropWs s with
  | [] => none
  | c :: rest =>
    if isLetterAD c then
      match dropWs rest with
      | d :: r3 =>
        if d = '.' || d = ')' then some (c, captureRest (dropWs r3)) else none
      | [] => none
    else none

/-- Match of `/Ch(?:ọn|on)\s*([A-D])/i` anchored at the current position. -/
def chonAt (s : Str) : Option Char :=
  match s with
  | [] => none
  | c :: rest =>
    if jsToLower c = 'c' then
      match rest with
      | [] => none
      | h :: r2 =>
        if jsToLower h = 'h' then
          match matchAlt2 (str "ọn") (str "on") r2 with
          | none => none
          | some r3 =>
            match dropWs r3 with
            | l :: _ => if isLetterAD l then some l else none
            | [] => none
        else none
    else none

/-- `text.match(/Ch(?:ọn|on)\s*([A-D])/i)` (line 515): unanchored first match. -/
def chonFind : Str → Option Char
  | [] => none
  | c :: rest =>
    match chonAt (c :: rest) with
    | some l => some l
    | none => chonFind rest

/-- `/^L(?:ời|oi)\s*gi(?:ải|ai)/i.test(text)` (lines 588, 757, 896). -/
def loiGiaiTest (s : Str) : Bool :=
  match s with
  | [] => false
  | c :: rest =>
    jsToLower c = 'l' &&
    (match matchAlt2 (str "ời") (str "oi") rest with
     | none => false
     | some r1 =>
       match matchLits (str "gi") (dropWs r1) with
       | none => false
       | some r2 => (matchAlt2 (str "ải") (str "ai") r2).isSome)

/-- `/^H(?:ình|inh)\s*\d+/i.test(text)` (lines 632, 642, 652, 793, 806, 815, 913, 922). -/
def hinhTest (s : Str) : Bool :=
  match s with
  | [] => false
  | c :: rest =>
    jsToLower c = 'h' &&
    (match matchAlt2 (str "ình") (str "inh") rest with
     | none => false
     | some r1 =>
       match dropWs r1 with
       | d :: _ => isDigitC d
       | [] => false)

/-- Capture tail of the part-3 answer pattern after `(?:án|an)`:
`[:\s]*(.+)` with the regex backtracking the greedy `[:\s]*` just far enough
for `(.+)` to match at least one non-line-terminator character.  If the
remainder after the maximal `[:\s]*` run is nonempty its head is never a
line terminator (line terminators are `\s`), so the capture starts there;
otherwise backtracking yields exactly the last non-line-terminator character
of the run, if any. -/
def ansTail (s : Str) : Option Str :=
  let pre := s.takeWhile (fun c => c = ':' || isJsWs c)
  let rest := s.drop pre.length
  match rest with
  | _ :: _ => some (captureRest rest)
  | [] =>
    match (pre.filter notNl).getLast? with
    | some c => some [c]
    | none => none

/-- `text.match(/^[*\s]*(?:Đ|D)áp\s*(?:án|an)[:\s]*(.+)/i)` (line 853). -/
def ansMatch3 (s : Str) : Option Str :=
  match s.dropWhile (fun c => c = '*' || isJsWs c) with
  | [] => none
  | c :: rest =>
    if jsToLower c = 'đ' || jsToLower c = 'd' then
      match matchLits (str "áp") rest with
      | none => none
      | some r1 =>
        match matchAlt2 (str "án") (str "an") (dropWs r1) with
        | none => none
        | some r3 => ansTail r3
    else none

/-- `/^[A-D]$/i.test(l)` (lines 543, 664). -/
def isSingleAD (s : Str) : Bool :=
  match s with
  | [c] => isLetterAD c
  | _ => false

-- ============================================================
-- normalizeLatex (lines 56-79)
-- ============================================================

/-- ECMA-262 GetSubstitution for a replacement template with one capture
group: `$$` is a literal dollar (and takes precedence over a following
digit), `$1` inserts the capture, anything else is literal. -/
def getSub1 (template : Str) (cap : Str) : Str :=
  match template with
  | [] => []
  | '$' :: '$' :: rest => '$' :: getSub1 rest cap
  | '$' :: '1' :: rest => cap ++ getSub1 rest cap
  | c :: rest => c :: getSub1 rest cap

/-- Earliest occurrence of the two-character closer `cl0 cl1` (lazy `*?`,
content may not end inside the closer): returns (content before, rest after). -/
def findClose2F (cl0 cl1 : Char) : Nat → Str → Option (Str × Str)
  | 0, _ => none
  | _ + 1, [] => none
  | fuel + 1, c :: rest =>
    if c = cl0 then
      match rest with
      | d :: rest2 =>
        if d = cl1 then some ([], rest2)
        else
          match findClose2F cl0 cl1 fuel rest with
          | some (a, b) => some (c :: a, b)
          | none => none
      | [] => none
    else
      match findClose2F cl0 cl1 fuel rest with
      | some (a, b) => some (c :: a, b)
      | none => none

def findClose2 (cl0 cl1 : Char) (s : Str) : Option (Str × Str) :=
  findClose2F cl0 cl1 (s.length + 1) s

/-- Global replace of `/\\\[([\s\S]*?)\\\]/g` with template `'$$$$1$$$$'`
(which GetSubstitution renders as the five literal characters `$$1$$` —
the capture is NOT inserted). -/
def blockCvtF : Nat → Str → Str
  | 0, s => s
  | _ + 1, [] => []
  | fuel + 1, '\\' :: '[' :: rest =>
    match findClose2 '\\' ']' rest with
    | some (content, after) => getSub1 (str "$$$$1$$$$") content ++ blockCvtF fuel after
    | none => '\\' :: blockCvtF fuel ('[' :: rest)
  | fuel + 1, c :: rest => c :: blockCvtF fuel rest

def blockCvt (s : Str) : Str := blockCvtF (s.length + 1) s

/-- Global replace of `/\\\(([\s\S]*?)\\\)/g` with template `'$$$1$$'`
(rendered as `$`, capture, `$`). -/
def parenCvtF : Nat → Str → Str
  | 0, s => s
  | _ + 1, [] => []
  | fuel + 1, '\\' :: '(' :: rest =>
    match findClose2 '\\' ')' rest with
    | some (content, after) => getSub1 (str "$$$1$$") content ++ parenCvtF fuel after
    | none => '\\' :: parenCvtF fuel ('(' :: rest)
  | fuel + 1, c :: rest => c :: parenCvtF fuel rest

def parenCvt (s : Str) : Str := parenCvtF (s.length + 1) s

/-- Replace every (non-overlapping, leftmost-first) occurrence of `pat`
by `rep`: `String.prototype.replace` with a `g` regex made of literals.
Every replacement string passed to this helper (the HTML entities and the
`aligned` environment delimiters) contains no dollar character, so
GetSubstitution is the identity on it and a literal splice is faithful. -/
def replaceAllSubF (pat rep : Str) : Nat → Str → Str
  | 0, s => s
  | _ + 1, [] => []
  | fuel + 1, c :: rest =>
    match matchLitsCs pat (c :: rest) with
    | some after =>
      match pat with
      | [] => c :: replaceAllSubF pat rep fuel rest
      | _ :: _ => rep ++ replaceAllSubF pat rep fuel after
    | none => c :: replaceAllSubF pat rep fuel rest

def replaceAllSub (pat rep s : Str) : Str := replaceAllSubF pat rep (s.length + 1) s

/-- ECMA-262 GetSubstitution for a replacement string with NO capture
groups, as applied by `String.prototype.replace` with a string pattern:
`$$` is a literal dollar, `$&` inserts the matched text, a dollar followed
by backquote (0x60) inserts the text before the match, a dollar followed by
apostrophe (0x27) inserts the text after the match; any other dollar
(including `$` + digit, since there are no captures) is literal. -/
def getSubRepl (matched before after : Str) : Str → Str
  | [] => []
  | '$' :: c :: rest =>
    if c = '$' then '$' :: getSubRepl matched before after rest
    else if c = '&' then matched ++ getSubRepl matched before after rest
    else if c = Char.ofNat 0x60 then before ++ getSubRepl matched before after rest
    else if c = Char.ofNat 0x27 then after ++ getSubRepl matched before after rest
    else '$' :: getSubRepl matched before after (c :: rest)
  | c :: rest => c :: getSubRepl matched before after rest

/-- `String.prototype.replace` with a plain string pattern: replaces only
the FIRST occurrence (or nothing when the pattern does not occur), applying
GetSubstitution to the replacement string with the pattern as the matched
text and the surrounding text as the before/after contexts. -/
def replaceFirstSubAux (pat rep before : Str) : Str → Str
  | [] => []
  | c :: rest =>
    match matchLitsCs pat (c :: rest) with
    | some after =>
      match pat with
      | [] => c :: rest
      | _ :: _ => getSubRepl pat before after rep ++ after
    | none => c :: replaceFirstSubAux pat rep (before ++ [c]) rest

def replaceFirstSub (pat rep s : Str) : Str := replaceFirstSubAux pat rep [] s

/-- Global replace of `/\${3,}/g` with template `'$$'` — which GetSubstitution
renders as a SINGLE literal dollar. -/
def dollarCollapseF : Nat → Str → Str
  | 0, s => s
  | _ + 1, [] => []
  | fuel + 1, c :: rest =>
    if c = '$' then
      let run := rest.takeWhile (fun d => d = '$')
      if run.length + 1 ≥ 3 then
        '$' :: dollarCollapseF fuel (rest.drop run.length)
      else
        (c :: run) ++ dollarCollapseF fuel (rest.drop run.length)
    else c :: dollarCollapseF fuel rest

def dollarCollapse (s : Str) : Str := dollarCollapseF (s.length + 1) s

/-- Global replace of `/[ \t]+/g` with `' '`. -/
def wsCompressF : Nat → Str → Str
  | 0, s => s
  | _ + 1, [] => []
  | fuel + 1, c :: rest =>
    if c = ' ' || c = '\t' then
      ' ' :: wsCompressF fuel (rest.dropWhile (fun d => d = ' ' || d = '\t'))
    else c :: wsCompressF fuel rest

def wsCompress (s : Str) : Str := wsCompressF (s.length + 1) s

/-- Global replace of `/\n{3,}/g` with `"\n\n"`. -/
def nlCompressF : Nat → Str → Str
  | 0, s => s
  | _ + 1, [] => []
  | fuel + 1, c :: rest =>
    if c = '\n' then
      let run := rest.takeWhile (fun d => d = '\n')
      if run.length + 1 ≥ 3 then
        '\n' :: '\n' :: nlCompressF fuel (rest.drop run.length)
      else
        (c :: run) ++ nlCompressF fuel (rest.drop run.length)
    else c :: nlCompressF fuel rest

def nlCompress (s : Str) : Str := nlCompressF (s.length + 1) s

/-- `normalizeLatex` (lines 56-79), pass for pass:
convert `\[...\]`, convert `\(...\)`, rewrite `align`/`align*` environments
to `aligned` (two literal-string passes each, equivalent to the regex with
the optional `*` since neither replacement re-creates a match), collapse
3-plus dollar runs, compress spaces/tabs, compress newline runs, trim. -/
def normalizeLatex (s : Str) : Str :=
  if s = [] then []
  else
    let s1 := blockCvt s
    let s2 := parenCvt s1
    let s3 := replaceAllSub (str "\\begin{align*}") (str "\\begin{aligned}") s2
    let s4 := replaceAllSub (str "\\begin{align}") (str "\\begin{aligned}") s3
    let s5 := replaceAllSub (str "\\end{align*}") (str "\\end{aligned}") s4
    let s6 := replaceAllSub (str "\\end{align}") (str "\\end{aligned}") s5
    let s7 := dollarCollapse s6
    let s8 := wsCompress s7
    let s9 := nlCompress s8
    jsTrim s9

-- ============================================================
-- escapeHtmlPreserveLaTeX (lines 85-108)
-- ============================================================

/-- The placeholder string for protected LaTeX block `i`. -/
def placeholder (i : Nat) : Str := str "__LATEX_BLOCK_" ++ natDigits i ++ str "__"

/-- First protection pass: global replace of `/\$\$([\s\S]*?)\$\$/g`,
pushing each full match onto the block list and substituting its placeholder.
`n` is the number of blocks already collected. -/
def blockPassF : Nat → Str → Nat → Str × List Str
  | 0, s, _ => (s, [])
  | _ + 1, [], _ => ([], [])
  | fuel + 1, '$' :: '$' :: rest, n =>
    match findClose2 '$' '$' rest with
    | some (content, after) =>
      let r := blockPassF fuel after (n + 1)
      (placeholder n ++ r.1, (str "$$" ++ content ++ str "$$") :: r.2)
    | none =>
      let r := blockPassF fuel ('$' :: rest) n
      ('$' :: r.1, r.2)
  | fuel + 1, c :: rest, n =>
    let r := blockPassF fuel rest n
    (c :: r.1, r.2)

def blockPass (s : Str) (n : Nat) : Str × List Str := blockPassF (s.length + 1) s n

/-- Lazy search for the closing `\$(?!\$)` of an inline region: the earliest
dollar not followed by another dollar; dollars failing the lookahead are
swallowed into the content. -/
def findCloseInlineF : Nat → Str → Option (Str × Str)
  | 0, _ => none
  | _ + 1, [] => none
  | fuel + 1, '$' :: rest =>
    match rest with
    | '$' :: _ =>
      match findCloseInlineF fuel rest with
      | some (a, b) => some ('$' :: a, b)
      | none => none
    | _ => some ([], rest)
  | fuel + 1, c :: rest =>
    match findCloseInlineF fuel rest with
    | some (a, b) => some (c :: a, b)
    | none => none

def findCloseInline (s : Str) : Option (Str × Str) :=
  findCloseInlineF (s.length + 1) s

/-- Second protection pass: global replace of `/\$(?!\$)([\s\S]*?)\$(?!\$)/g`. -/
def inlinePassF : Nat → Str → Nat → Str × List Str
  | 0, s, _ => (s, [])
  | _ + 1, [], _ => ([], [])
  | fuel + 1, '$' :: rest, n =>
    match rest with
    | '$' :: _ =>
      let r := inlinePassF fuel rest n
      ('$' :: r.1, r.2)
    | _ =>
      match findCloseInline rest with
      | some (content, after) =>
        let r := inlinePassF fuel after (n + 1)
        (placeholder n ++ r.1, (('$' :: content) ++ ['$']) :: r.2)
      | none =>
        let r := inlinePassF fuel rest n
        ('$' :: r.1, r.2)
  | fuel + 1, c :: rest, n =>
    let r := inlinePassF fuel rest n
    (c :: r.1, r.2)

def inlinePass (s : Str) (n : Nat) : Str × List Str := inlinePassF (s.length + 1) s n

/-- The three sequential escape replaces (`&` before `<` before `>`, so the
ampersands introduced by `&lt;`/`&gt;` are not re-escaped). -/
def escapeHtmlChars (s : Str) : Str :=
  replaceAllSub (str ">") (str "&gt;")
    (replaceAllSub (str "<") (str "&lt;")
      (replaceAllSub (str "&") (str "&amp;") s))

/-- Restore loop (lines 103-105): for each block index in push order, replace
the FIRST occurrence of its placeholder.  The protected block is spliced in
as a `String.prototype.replace` replacement string, so GetSubstitution
applies to it: dollar escapes inside a restored block are interpreted. -/
def restoreBlocks (blocks : List Str) (s : Str) : Str :=
  (blocks.enum).foldl (fun t ib => replaceFirstSub (placeholder ib.1) ib.2 t) s

/-- `escapeHtmlPreserveLaTeX` (lines 85-108). -/
def escapeHtmlPreserveLaTeX (s : Str) : Str :=
  if s = [] then []
  else
    let p1 := blockPass s 0
    let p2 := inlinePass p1.1 p1.2.length
    restoreBlocks (p1.2 ++ p2.2) (escapeHtmlChars p2.1)

-- ============================================================
-- Data model (src/types and the parser-local types, lines 17-38)
-- ============================================================

inductive QuestionType where
  | multiple_choice
  | true_false
  | short_answer
  | writing
  | unknown
deriving DecidableEq

/-- An option/statement pair.  The letter capture of the option and statement
patterns is always exactly one character, so it is modelled as `Char`. -/
structure QuestionOption where
  letter : Char
  text : Str
deriving DecidableEq

structure ImageData where
  id : Str
  filename : Str
  base64 : Str
  contentType : Str
  rId : Str
deriving DecidableEq

structure ParsedQuestion where
  number : Nat
  globalIndex : Nat
  part : Nat
  type : QuestionType
  text : Str
  options : List QuestionOption
  correctAnswer : Option Str
  solution : Str
  images : List ImageData
deriving DecidableEq

structure ParagraphData where
  text : Str
  imageRIds : List Str
  hasUnderline : Bool
  underlinedSegments : List Str
deriving DecidableEq

structure QSection where
  letter : Str
  name : Str
  points : Str
deriving DecidableEq

structure Question where
  number : Nat
  text : Str
  type : QuestionType
  options : List QuestionOption
  correctAnswer : Option Str
  part : Str
  images : List ImageData
  solution : Str
  «section» : QSection
deriving DecidableEq

structure SectionData where
  name : Str
  description : Str
  points : Str
  questions : List Question
  sectionType : QuestionType
deriving DecidableEq

/-- The answer key `{ [questionNumber: number]: string }` is modelled as an
association list in insertion order; assigning to an existing key updates it
in place, assigning a fresh key appends. -/
def setKey : List (Nat × Str) → Nat → Str → List (Nat × Str)
  | [], k, v => [(k, v)]
  | (k0, v0) :: rest, k, v =>
    if k0 = k then (k, v) :: rest else (k0, v0) :: setKey rest k v

def lookupKey : List (Nat × Str) → Nat → Option Str
  | [], _ => none
  | (k0, v0) :: rest, k => if k0 = k then some v0 else lookupKey rest k

structure ExamData where
  title : Str
  timeLimit : Nat
  sections : List SectionData
  questions : List Question
  answers : List (Nat × Str)
  images : List ImageData
deriving DecidableEq

-- ============================================================
-- attachImages (lines 944-961)
-- ============================================================

/-- Substring containment, `rId.includes(filename)`. -/
def containsSub (pat : Str) : Str → Bool
  | [] => (matchLitsCs pat []).isSome
  | c :: rest => (matchLitsCs pat (c :: rest)).isSome || containsSub pat rest

/-- Resolution of one relationship id (lines 946-955): direct `rId` match
first, then the fallback substring match against a truthy filename. -/
def resolveImage (images : List ImageData) (rId : Str) : Option ImageData :=
  match images.find? (fun i => i.rId = rId) with
  | some img => some img
  | none => images.find? (fun i => i.filename ≠ [] && containsSub i.filename rId)

/-- One iteration of the `for (const rId of rIds)` loop body. -/
def attachOne (images : List ImageData) (cur : List ImageData) (rId : Str) :
    List ImageData :=
  match resolveImage images rId with
  | some img => if cur.any (fun i => i.id = img.id) then cur else cur ++ [img]
  | none => cur

/-- `attachImages` (lines 944-961), acting on the question's image list. -/
def attachImages (cur : List ImageData) (rIds : List Str)
    (images : List ImageData) : List ImageData :=
  rIds.foldl (attachOne images) cur

/-- The image update applied by the parsers: the source guards each call with
`if (imageRIds.length > 0)`. -/
def attachIf (cur : List ImageData) (rIds : List Str)
    (images : List ImageData) : List ImageData :=
  if rIds ≠ [] then attachImages cur rIds images else cur

-- ============================================================
-- convertToQuestion / getPartName (lines 963-997)
-- ============================================================

def getPartName (part : Nat) : Str :=
  if part = 1 then str "Trắc nghiệm nhiều lựa chọn"
  else if part = 2 then str "Trắc nghiệm đúng sai"
  else if part = 3 then str "Trắc nghiệm trả lời ngắn"
  else []

/-- `convertToQuestion` (lines 963-984).  The `globalIndex` argument is unused
by the source function as well. -/
def convertToQuestion (pq : ParsedQuestion) (_globalIndex : Nat) : Question :=
  { number := pq.part * 100 + pq.number
    text := escapeHtmlPreserveLaTeX pq.text
    type := pq.type
    options := pq.options.map (fun o => { o with text := escapeHtmlPreserveLaTeX o.text })
    correctAnswer := pq.correctAnswer
    part := str "PHẦN " ++ natDigits pq.part
    images := pq.images
    solution := pq.solution
    «section» := { letter := natDigits pq.part, name := getPartName pq.part, points := [] } }

-- ============================================================
-- detectSections (lines 410-484)
-- ============================================================

structure SectionInfo where
  part1Start : Int
  part2Start : Int
  part3Start : Int
deriving DecidableEq

/-- One iteration of the scan (lines 448-477): the three checks run in
sequence on the paragraph at index `i`, each seeing the updates of the
previous one. -/
def detectStep (ip : Nat × ParagraphData) (info : SectionInfo) : SectionInfo :=
  let i : Int := ip.1
  let text := ip.2.text
  let info1 :=
    if info.part1Start = -1 && testAny part1Pats text then
      { info with part1Start := i } else info
  let info2 :=
    if info1.part2Start = -1 && i > info1.part1Start && testAny part2Pats text then
      { info1 with part2Start := i } else info1
  let info3 :=
    if info2.part3Start = -1 && i > max info2.part1Start info2.part2Start &&
        testAny part3Pats text then
      { info2 with part3Start := i } else info2
  info3

def detectSections (_fullText : Str) (paragraphs : List ParagraphData) : SectionInfo :=
  let info := paragraphs.enum.foldl (fun acc ip => detectStep ip acc)
    { part1Start := -1, part2Start := -1, part3Start := -1 }
  let p1 := if info.part1Start = -1 then 0 else info.part1Start
  let p2 := if info.part2Start = -1 then (paragraphs.length : Int) else info.part2Start
  let p3 := if info.part3Start = -1 then (paragraphs.length : Int) else info.part3Start
  { part1Start := p1, part2Start := p2, part3Start := p3 }

-- ============================================================
-- parsePart1WithUnderline (lines 490-676)
-- ============================================================

/-- Mutable loop state of `parsePart1WithUnderline`. -/
structure P1State where
  questions : List ParsedQuestion
  currentQ : Option ParsedQuestion
  collectingContent : Bool
  contentBuffer : List Str
  inSolution : Bool
  solutionBuffer : List Str
  letters : List Str
  currentOptionIndex : Int
  startedOptions : Bool
deriving DecidableEq

/-- Underline inference at flush time (lines 542-549 and 663-669). -/
def flushAnswerP1 (ca : Option Str) (letters : List Str) : Option Str :=
  if truthy ca = false && letters ≠ [] then
    match letters.find? isSingleAD with
    | some u => some (jsToUpperStr u)
    | none => ca
  else ca

/-- The flush of the current part-1 question (lines 538-550 and 659-671):
commit the stem buffer when the stem is still empty, commit the solution
buffer, run underline inference. -/
def flushQ1 (q : ParsedQuestion) (contentBuffer solutionBuffer : List Str)
    (letters : List Str) : ParsedQuestion :=
  let q1 := if contentBuffer ≠ [] && q.text = [] then
      { q with text := jsTrim (joinSp contentBuffer) } else q
  let q2 := if solutionBuffer ≠ [] then
      { q1 with solution := jsTrim (joinSp solutionBuffer) } else q1
  { q2 with correctAnswer := flushAnswerP1 q2.correctAnswer letters }

/-- `if (currentQ.text) questions.push(currentQ)` (lines 550, 671; 724, 832;
868, 933). -/
def pushIfText (qs : List ParsedQuestion) (q : ParsedQuestion) :
    List ParsedQuestion :=
  if q.text ≠ [] then qs ++ [q] else qs

/-- A fresh part-1 question record (lines 556-566). -/
def newQ1 (n : Nat) : ParsedQuestion :=
  { number := n, globalIndex := 0, part := 1, type := .multiple_choice
    text := [], options := [], correctAnswer := none, solution := [], images := [] }

/-- Append a continuation paragraph to the option at `idx`
(line 633; a no-op when the index is out of range, which is unreachable
in the states produced by the loop). -/
def appendOptText (opts : List QuestionOption) (idx : Nat) (text : Str) :
    List QuestionOption :=
  match opts.get? idx with
  | some o => opts.set idx { o with text := jsTrim (o.text ++ ' ' :: text) }
  | none => opts

/-- One iteration of the part-1 loop body (lines 517-656). -/
def p1Step (images : List ImageData) (st : P1State) (para : ParagraphData) :
    P1State :=
  let text := para.text
  let rids := para.imageRIds
  if text = [] && rids = [] then st
  else if p1HeaderSkip text then st
  else
    match qMatch text with
    | some nr =>
      let qs1 :=
        match st.currentQ with
        | some q => pushIfText st.questions
            (flushQ1 q st.contentBuffer st.solutionBuffer st.letters)
        | none => st.questions
      let restText := jsTrim nr.2
      let q0 := newQ1 nr.1
      let q1 := { q0 with images := attachIf q0.images rids images }
      { questions := qs1
        currentQ := some q1
        collectingContent := true
        contentBuffer := if restText ≠ [] then [restText] else []
        inSolution := false
        solutionBuffer := []
        letters := if para.hasUnderline then para.underlinedSegments else []
        currentOptionIndex := -1
        startedOptions := false }
    | none =>
      match st.currentQ with
      | none => st
      | some q =>
        if loiGiaiTest text then
          let commit := st.contentBuffer ≠ [] && q.text = []
          let q1 := if commit then { q with text := jsTrim (joinSp st.contentBuffer) } else q
          { st with
            currentQ := some q1
            contentBuffer := if commit then [] else st.contentBuffer
            collectingContent := false
            inSolution := true
            solutionBuffer := [] }
        else
          match chonFind text with
          | some l =>
            { st with currentQ := some { q with correctAnswer := some [jsToUpper l] } }
          | none =>
            match (if st.collectingContent then optMatch text else none) with
            | some lt =>
              let commit := q.options = [] && st.contentBuffer ≠ []
              let q1 := if commit then { q with text := jsTrim (joinSp st.contentBuffer) } else q
              let letter := jsToUpper lt.1
              let q2 := { q1 with options := q1.options ++ [⟨letter, jsTrim lt.2⟩] }
              { st with
                currentQ := some q2
                contentBuffer := if commit then [] else st.contentBuffer
                currentOptionIndex := (q2.options.length : Int) - 1
                startedOptions := true
                letters := if para.hasUnderline then st.letters ++ [[letter]] else st.letters }
            | none =>
              if st.collectingContent && st.startedOptions &&
                  st.currentOptionIndex ≥ 0 && text ≠ [] && !st.inSolution then
                let idx := st.currentOptionIndex.toNat
                let q1 :=
                  if ¬ hinhTest text then
                    { q with options := appendOptText q.options idx text }
                  else q
                let letters1 :=
                  if ¬ hinhTest text && para.hasUnderline then
                    match q.options.get? idx with
                    | some o => st.letters ++ [[o.letter]]
                    | none => st.letters
                  else st.letters
                { st with
                  currentQ := some { q1 with images := attachIf q1.images rids images }
                  letters := letters1 }
              else
                if st.collectingContent && text ≠ [] && !st.inSolution &&
                    !st.startedOptions && hinhTest text then
                  { st with currentQ := some { q with images := attachIf q.images rids images } }
                else
                  let stemPush := st.collectingContent && text ≠ [] &&
                    !st.inSolution && !st.startedOptions
                  let cb1 := if stemPush then st.contentBuffer ++ [text] else st.contentBuffer
                  let letters1 :=
                    if stemPush && para.hasUnderline then
                      st.letters ++ para.underlinedSegments
                    else st.letters
                  let sb1 :=
                    if st.inSolution && text ≠ [] && ¬ hinhTest text then
                      st.solutionBuffer ++ [text]
                    else st.solutionBuffer
                  let q1 :=
                    if rids ≠ [] && !st.inSolution then
                      { q with images := attachImages q.images rids images }
                    else q
                  { st with
                    currentQ := some q1
                    contentBuffer := cb1
                    letters := letters1
                    solutionBuffer := sb1 }

/-- Question ordering used by the final `sort` (stable comparator
`(a, b) => a.number - b.number`). -/
def qle (a b : ParsedQuestion) : Prop := a.number ≤ b.number

instance : DecidableRel qle := fun a b => Nat.decLe a.number b.number

/-- Stable sort by question number; `Array.prototype.sort` is stable, and
insertion sort with a total preorder is its unique stable realization. -/
def sortByNumber (qs : List ParsedQuestion) : List ParsedQuestion :=
  List.insertionSort qle qs

/-- The sub-range `paragraphs[startIdx..endIdx)` iterated by the loops. -/
def sliceRange (paragraphs : List ParagraphData) (startIdx endIdx : Nat) :
    List ParagraphData :=
  (paragraphs.drop startIdx).take (endIdx - startIdx)

/-- Final flush and sort of `parsePart1WithUnderline` (lines 659-675). -/
def p1Finish (st : P1State) : List ParsedQuestion :=
  let qs :=
    match st.currentQ with
    | some q => pushIfText st.questions
        (flushQ1 q st.contentBuffer st.solutionBuffer st.letters)
    | none => st.questions
  sortByNumber qs

def p1Init : P1State :=
  { questions := [], currentQ := none, collectingContent := false
    contentBuffer := [], inSolution := false, solutionBuffer := []
    letters := [], currentOptionIndex := -1, startedOptions := false }

/-- `parsePart1WithUnderline` (lines 490-676).  The `startIdx < 0` guard of
the source cannot fire for the `Nat` indices produced by `detectSections`
after defaulting. -/
def parsePart1WithUnderline (paragraphs : List ParagraphData)
    (startIdx endIdx : Nat) (images : List ImageData) : List ParsedQuestion :=
  if endIdx ≤ startIdx then []
  else p1Finish ((sliceRange paragraphs startIdx endIdx).foldl (p1Step images) p1Init)

-- ============================================================
-- parsePart2 (lines 682-837)
-- ============================================================

/-- Mutable loop state of `parsePart2`.  `trueStatements` models the JS
`Set<string>` of single letters as a duplicate-free insertion-ordered list
of characters. -/
structure P2State where
  questions : List ParsedQuestion
  currentQ : Option ParsedQuestion
  collectingContent : Bool
  contentBuffer : List Str
  inSolution : Bool
  solutionBuffer : List Str
  trueStatements : List Char
  currentStmtIndex : Int
  startedStatements : Bool
deriving DecidableEq

/-- `Set.prototype.add`. -/
def setAdd (s : List Char) (c : Char) : List Char :=
  if c ∈ s then s else s ++ [c]

/-- Sorting of the statement letters: `Array.from(set).sort()` on
single-letter strings coincides with sorting the characters. -/
def sortChars (s : List Char) : List Char :=
  List.insertionSort (fun a b => a ≤ b) s

/-- True/false answer inference at flush time (lines 718-722 and 826-830). -/
def flushAnswerP2 (ca : Option Str) (trueStatements : List Char) : Option Str :=
  if truthy ca = false && trueStatements ≠ [] then
    some (joinComma (sortChars trueStatements))
  else ca

/-- The flush of the current part-2 question (lines 714-724 and 822-832). -/
def flushQ2 (q : ParsedQuestion) (contentBuffer solutionBuffer : List Str)
    (trueStatements : List Char) : ParsedQuestion :=
  let q1 := if contentBuffer ≠ [] && q.text = [] then
      { q with text := jsTrim (joinSp contentBuffer) } else q
  let q2 := if solutionBuffer ≠ [] then
      { q1 with solution := jsTrim (joinSp solutionBuffer) } else q1
  { q2 with correctAnswer := flushAnswerP2 q2.correctAnswer trueStatements }

/-- A fresh part-2 question record (lines 730-740). -/
def newQ2 (n : Nat) : ParsedQuestion :=
  { number := n, globalIndex := 0, part := 2, type := .true_false
    text := [], options := [], correctAnswer := none, solution := [], images := [] }

/-- One iteration of the part-2 loop body (lines 703-819). -/
def p2Step (images : List ImageData) (st : P2State) (para : ParagraphData) :
    P2State :=
  let text := para.text
  let rids := para.imageRIds
  if text = [] && rids = [] then st
  else if p23HeaderSkip text then st
  else
    match qMatch text with
    | some nr =>
      let qs1 :=
        match st.currentQ with
        | some q => pushIfText st.questions
            (flushQ2 q st.contentBuffer st.solutionBuffer st.trueStatements)
        | none => st.questions
      let restText := jsTrim nr.2
      let q0 := newQ2 nr.1
      let q1 := { q0 with images := attachIf q0.images rids images }
      { questions := qs1
        currentQ := some q1
        collectingContent := true
        contentBuffer := if restText ≠ [] then [restText] else []
        inSolution := false
        solutionBuffer := []
        trueStatements := []
        currentStmtIndex := -1
        startedStatements := false }
    | none =>
      match st.currentQ with
      | none => st
      | some q =>
        if loiGiaiTest text then
          let commit := st.contentBuffer ≠ [] && q.text = []
          let q1 := if commit then { q with text := jsTrim (joinSp st.contentBuffer) } else q
          { st with
            currentQ := some q1
            contentBuffer := if commit then [] else st.contentBuffer
            collectingContent := false
            inSolution := true
            solutionBuffer := [] }
        else
          match (if st.collectingContent then optMatch text else none) with
          | some lt =>
            let commit := q.options = [] && st.contentBuffer ≠ []
            let q1 := if commit then { q with text := jsTrim (joinSp st.contentBuffer) } else q
            let letter := jsToLower lt.1
            let q2 := { q1 with options := q1.options ++ [⟨letter, jsTrim lt.2⟩] }
            { st with
              currentQ := some q2
              contentBuffer := if commit then [] else st.contentBuffer
              currentStmtIndex := (q2.options.length : Int) - 1
              startedStatements := true
              trueStatements :=
                if para.hasUnderline then setAdd st.trueStatements letter
                else st.trueStatements }
          | none =>
            if st.collectingContent && st.startedStatements &&
                st.currentStmtIndex ≥ 0 && text ≠ [] && !st.inSolution then
              let idx := st.currentStmtIndex.toNat
              let q1 :=
                if ¬ hinhTest text then
                  { q with options := appendOptText q.options idx text }
                else q
              let ts1 :=
                if ¬ hinhTest text && para.hasUnderline then
                  match q.options.get? idx with
                  | some o => setAdd st.trueStatements (jsToLower o.letter)
                  | none => st.trueStatements
                else st.trueStatements
              { st with
                currentQ := some { q1 with images := attachIf q1.images rids images }
                trueStatements := ts1 }
            else
              if st.collectingContent && text ≠ [] && !st.inSolution &&
                  !st.startedStatements && hinhTest text then
                { st with currentQ := some { q with images := attachIf q.images rids images } }
              else
                let stemPush := st.collectingContent && text ≠ [] &&
                  !st.inSolution && !st.startedStatements
                let cb1 := if stemPush then st.contentBuffer ++ [text] else st.contentBuffer
                let sb1 :=
                  if st.inSolution && text ≠ [] && ¬ hinhTest text then
                    st.solutionBuffer ++ [text]
                  else st.solutionBuffer
                let q1 :=
                  if rids ≠ [] && !st.inSolution then
                    { q with images := attachImages q.images rids images }
                  else q
                { st with
                  currentQ := some q1
                  contentBuffer := cb1
                  solutionBuffer := sb1 }

def p2Init : P2State :=
  { questions := [], currentQ := none, collectingContent := false
    contentBuffer := [], inSolution := false, solutionBuffer := []
    trueStatements := [], currentStmtIndex := -1, startedStatements := false }

/-- Final flush and sort of `parsePart2` (lines 822-836). -/
def p2Finish (st : P2State) : List ParsedQuestion :=
  let qs :=
    match st.currentQ with
    | some q => pushIfText st.questions
        (flushQ2 q st.contentBuffer st.solutionBuffer st.trueStatements)
    | none => st.questions
  sortByNumber qs

/-- `parsePart2` (lines 682-837). -/
def parsePart2 (paragraphs : List ParagraphData) (startIdx endIdx : Nat)
    (images : List ImageData) : List ParsedQuestion :=
  if endIdx ≤ startIdx || paragraphs.length ≤ startIdx then []
  else p2Finish ((sliceRange paragraphs startIdx endIdx).foldl (p2Step images) p2Init)

-- ============================================================
-- parsePart3 (lines 843-938)
-- ============================================================

structure P3State where
  questions : List ParsedQuestion
  currentQ : Option ParsedQuestion
  collectingContent : Bool
  contentBuffer : List Str
  solutionBuffer : List Str
deriving DecidableEq

/-- The flush of the current part-3 question (lines 865-868 and 930-933):
unlike parts 1 and 2 the stem commit overwrites any earlier stem. -/
def flushQ3 (q : ParsedQuestion) (contentBuffer solutionBuffer : List Str) :
    ParsedQuestion :=
  let q1 := if contentBuffer ≠ [] then
      { q with text := jsTrim (joinSp contentBuffer) } else q
  if solutionBuffer ≠ [] then
    { q1 with solution := jsTrim (joinSp solutionBuffer) } else q1

/-- A fresh part-3 question record (lines 874-884). -/
def newQ3 (n : Nat) : ParsedQuestion :=
  { number := n, globalIndex := 0, part := 3, type := .short_answer
    text := [], options := [], correctAnswer := none, solution := [], images := [] }

/-- One iteration of the part-3 loop body (lines 855-928). -/
def p3Step (images : List ImageData) (st : P3State) (para : ParagraphData) :
    P3State :=
  let text := para.text
  let rids := para.imageRIds
  if text = [] && rids = [] then st
  else if p23HeaderSkip text then st
  else
    match qMatch text with
    | some nr =>
      let qs1 :=
        match st.currentQ with
        | some q => pushIfText st.questions (flushQ3 q st.contentBuffer st.solutionBuffer)
        | none => st.questions
      let restText := jsTrim nr.2
      let q0 := newQ3 nr.1
      let q1 := { q0 with images := attachIf q0.images rids images }
      { questions := qs1
        currentQ := some q1
        collectingContent := true
        contentBuffer := if restText ≠ [] then [restText] else []
        solutionBuffer := [] }
    | none =>
      match st.currentQ with
      | none => st
      | some q =>
        if loiGiaiTest text then
          let commit := st.contentBuffer ≠ []
          let q1 := if commit then { q with text := jsTrim (joinSp st.contentBuffer) } else q
          { st with
            currentQ := some q1
            contentBuffer := if commit then [] else st.contentBuffer
            collectingContent := false
            solutionBuffer := [] }
        else
          match ansMatch3 text with
          | some cap =>
            { st with currentQ := some { q with correctAnswer := some (jsTrim cap) } }
          | none =>
            if st.collectingContent && text ≠ [] && hinhTest text then
              { st with currentQ := some { q with images := attachIf q.images rids images } }
            else
              let stemPush := st.collectingContent && text ≠ []
              let cb1 := if stemPush then st.contentBuffer ++ [text] else st.contentBuffer
              let solPush := !st.collectingContent && text ≠ [] && !qTestCs text &&
                ¬ hinhTest text && (ansMatch3 text).isNone
              let sb1 := if solPush then st.solutionBuffer ++ [text] else st.solutionBuffer
              let q1 :=
                if rids ≠ [] then { q with images := attachImages q.images rids images }
                else q
              { st with
                currentQ := some q1
                contentBuffer := cb1
                solutionBuffer := sb1 }

def p3Init : P3State :=
  { questions := [], currentQ := none, collectingContent := false
    contentBuffer := [], solutionBuffer := [] }

/-- Final flush and sort of `parsePart3` (lines 930-937). -/
def p3Finish (st : P3State) : List ParsedQuestion :=
  let qs :=
    match st.currentQ with
    | some q => pushIfText st.questions (flushQ3 q st.contentBuffer st.solutionBuffer)
    | none => st.questions
  sortByNumber qs

/-- `parsePart3` (lines 843-938); its only early return is
`startIdx >= paragraphs.length`. -/
def parsePart3 (paragraphs : List ParagraphData) (startIdx endIdx : Nat)
    (images : List ImageData) : List ParsedQuestion :=
  if paragraphs.length ≤ startIdx then []
  else p3Finish ((sliceRange paragraphs startIdx endIdx).foldl (p3Step images) p3Init)

-- ============================================================
-- parseAllQuestions (lines 317-398)
-- ============================================================

/-- Answer-key insertion step: `if (q.correctAnswer) examData.answers[q.number]
= q.correctAnswer` (lines 348, 385). -/
def answersUpd (m : List (Nat × Str)) (q : Question) : List (Nat × Str) :=
  if truthy q.correctAnswer then setKey m q.number (q.correctAnswer.getD []) else m

/-- `parseAllQuestions` (lines 317-398).  The three per-section loops push the
converted questions in order into `questions` (and, for sections 1 and 3 only,
into the answer key); the `globalIndex` counter they thread through
`convertToQuestion` is ignored by it.  Each section entry is pushed only when
its question list is nonempty. -/
def parseAllQuestions (paragraphs : List ParagraphData)
    (images : List ImageData) : ExamData :=
  let fullText := joinNl (paragraphs.map (fun p => p.text))
  let si := detectSections fullText paragraphs
  let part1Questions := parsePart1WithUnderline paragraphs si.part1Start.toNat
    si.part2Start.toNat images
  let part2Questions := parsePart2 paragraphs si.part2Start.toNat
    si.part3Start.toNat images
  let part3Questions := parsePart3 paragraphs si.part3Start.toNat
    paragraphs.length images
  let sec1Qs := part1Questions.map (fun pq => convertToQuestion pq 0)
  let sec2Qs := part2Questions.map (fun pq => convertToQuestion pq 0)
  let sec3Qs := part3Questions.map (fun pq => convertToQuestion pq 0)
  let answers := (sec1Qs ++ sec3Qs).foldl answersUpd []
  let sections1 :=
    if part1Questions ≠ [] then
      [{ name := str "PHẦN 1. Trắc nghiệm nhiều lựa chọn"
         description := str "Thí sinh chọn một phương án đúng A, B, C hoặc D"
         points := []
         questions := sec1Qs
         sectionType := QuestionType.multiple_choice }]
    else []
  let sections2 :=
    if part2Questions ≠ [] then
      [{ name := str "PHẦN 2. Trắc nghiệm đúng sai"
         description := str "Thí sinh chọn Đúng hoặc Sai cho mỗi ý a), b), c), d)"
         points := []
         questions := sec2Qs
         sectionType := QuestionType.true_false }]
    else []
  let sections3 :=
    if part3Questions ≠ [] then
      [{ name := str "PHẦN 3. Trắc nghiệm trả lời ngắn"
         description := str "Thí sinh điền đáp án số vào ô trống"
         points := []
         questions := sec3Qs
         sectionType := QuestionType.short_answer }]
    else []
  { title := []
    timeLimit := 90
    sections := sections1 ++ sections2 ++ sections3
    questions := sec1Qs ++ sec2Qs ++ sec3Qs
    answers := answers
    images := [] }

-- ============================================================
-- validateExamData (lines 1003-1037)
-- ============================================================

def noQuestionsMsg : Str := str "Không tìm thấy câu hỏi nào trong file"

def missingTextMsg (n : Nat) : Str :=
  str "Câu " ++ natDigits n ++ str ": Thiếu nội dung câu hỏi"

/-- `!q.text || !q.text.trim()`: empty or whitespace-only stem. -/
def blankText (s : Str) : Bool := jsTrim s = []

/-- `validateExamData` (lines 1003-1037).  The section/answer counters the
source also accumulates are only logged, not returned, and are omitted. -/
def validateExamData (data : ExamData) : Bool × List Str :=
  let errors0 := if data.questions = [] then [noQuestionsMsg] else []
  let errors := data.questions.foldl
    (fun acc q => if blankText q.text then acc ++ [missingTextMsg q.number] else acc)
    errors0
  (errors = [], errors)

-- ============================================================
-- Concrete inputs used by counterexamples and witnesses
-- ============================================================

/-- Number of `$$...$$` regions the first protection pass recognizes. -/
def blockRegionCount (s : Str) : Nat := (blockPass s 0).2.length

def emptyExam : ExamData :=
  { title := [], timeLimit := 90, sections := [], questions := [], answers := [], images := [] }

/-- A paragraph with only text. -/
def tPara (s : String) : ParagraphData :=
  { text := str s, imageRIds := [], hasUnderline := false, underlinedSegments := [] }

/-- Input A: a section-2 header followed by one true/false question whose
statement `a)` is underlined. -/
def psA : List ParagraphData :=
  [tPara "PHẦN 2", tPara "Câu 1. tb",
   { text := str "a) s1", imageRIds := [], hasUnderline := true,
     underlinedSegments := [str "s1"] }]

/-- Input B: two section-1 questions that share the authored number 1. -/
def psB : List ParagraphData :=
  [tPara "Câu 1. x", tPara "Chọn A", tPara "Câu 1. y", tPara "Chọn B"]

/-- Input C: a section-3 question whose answer line has only trailing
whitespace after the colon, so the captured answer trims to the empty string. -/
def psC : List ParagraphData :=
  [tPara "PHẦN 3", tPara "Câu 1. q3", tPara "Đáp án: "]

def img1 : ImageData :=
  { id := str "img_0", filename := str "image1.png", base64 := str "QUJD",
    contentType := str "image/png", rId := str "rId1" }

/-- Input D: a figure paragraph carrying an image while the part-1 parser is
collecting a solution. -/
def psD : List ParagraphData :=
  [tPara "Câu 1. s", tPara "Lời giải",
   { text := str "Hình 2", imageRIds := [str "rId1"], hasUnderline := false,
     underlinedSegments := [] }]

/-- Input E: a figure paragraph whose text also contains the explicit-answer
phrase. -/
def psE : List ParagraphData :=
  [tPara "Câu 1. s",
   { text := str "Hình 1 Chọn A", imageRIds := [str "rId1"], hasUnderline := false,
     underlinedSegments := [] }]

/-- Input F: a figure paragraph whose text also contains a section-header
phrase. -/
def psF : List ParagraphData :=
  [tPara "Câu 1. s",
   { text := str "Hình 1 PHẦN 2", imageRIds := [str "rId1"], hasUnderline := false,
     underlinedSegments := [] }]

/-- Input G: a single question and no section headers at all. -/
def psG : List ParagraphData := [tPara "Câu 1. x"]

-- ============================================================
-- Helper lemmas
-- ============================================================

def abcdL : List Char := ['a', 'b', 'c', 'd']

/-- A strictly sorted list is a sublist of any strictly sorted list
containing its elements. -/
def ansValid (oa : Option Str) : Prop :=
  ∀ a, oa = some a → ∃ s : List Char, s ≠ [] ∧ s.Sublist abcdL ∧ a = joinComma s

def P2Inv (st : P2State) : Prop :=
  (∀ q ∈ st.questions, ansValid q.correctAnswer) ∧
  (∀ q, st.currentQ = some q →
     q.correctAnswer = none ∧ ∀ o ∈ q.options, o.letter ∈ abcdL) ∧
  st.trueStatements.Nodup ∧
  (∀ c ∈ st.trueStatements, c ∈ abcdL)

/-- The section-2 question parsed from input A. -/
def q2A : ParsedQuestion :=
  { number := 1, globalIndex := 0, part := 2, type := .true_false
    text := str "tb", options := [⟨'a', str "s1"⟩]
    correctAnswer := some (str "a"), solution := [], images := [] }

/-- Witness for C6 on input A: the underlined statement `a)` yields the
answer string `a`, which decomposes as required, and an empty letter set
yields a null answer. -/
def P1PartInv (st : P1State) : Prop :=
  (∀ q ∈ st.questions, q.part = 1) ∧ (∀ q, st.currentQ = some q → q.part = 1)

def P2PartInv (st : P2State) : Prop :=
  (∀ q ∈ st.questions, q.part = 2) ∧ (∀ q, st.currentQ = some q → q.part = 2)

def P3PartInv (st : P3State) : Prop :=
  (∀ q ∈ st.questions, q.part = 3) ∧ (∀ q, st.currentQ = some q → q.part = 3)

def part1Of (paragraphs : List ParagraphData) (images : List ImageData) :
    List ParsedQuestion :=
  let si := detectSections (joinNl (paragraphs.map (fun p => p.text))) paragraphs
  parsePart1WithUnderline paragraphs si.part1Start.toNat si.part2Start.toNat images

/-- The local `part2Questions` of `parseAllQuestions` (line 332). -/
def part2Of (paragraphs : List ParagraphData) (images : List ImageData) :
    List ParsedQuestion :=
  let si := detectSections (joinNl (paragraphs.map (fun p => p.text))) paragraphs
  parsePart2 paragraphs si.part2Start.toNat si.part3Start.toNat images

/-- The local `part3Questions` of `parseAllQuestions` (line 333). -/
def part3Of (paragraphs : List ParagraphData) (images : List ImageData) :
    List ParsedQuestion :=
  let si := detectSections (joinNl (paragraphs.map (fun p => p.text))) paragraphs
  parsePart3 paragraphs si.part3Start.toNat paragraphs.length images

/-- Input I: two section-1 questions with distinct authored numbers. -/
def psI : List ParagraphData := [tPara "Câu 1. x", tPara "Câu 2. y"]

/-- Witness for C4 on input I. -/
def sec13Of (paragraphs : List ParagraphData) (images : List ImageData) :
    List Question :=
  (part1Of paragraphs images).map (fun pq => convertToQuestion pq 0) ++
  (part3Of paragraphs images).map (fun pq => convertToQuestion pq 0)

def noSectionHeader (s : Str) : Bool :=
  !(testAny part1Pats s || testAny part2Pats s || testAny part3Pats s)

def hinhHead (s : Str) : Prop := s.head? = some 'H' ∨ s.head? = some 'h'

def p1StConcrete : P1State :=
  { p1Init with currentQ := some (newQ1 1), collectingContent := true }

/-- A figure paragraph carrying one image. -/
def paraHinh : ParagraphData :=
  { text := str "Hình 2", imageRIds := [str "rId1"], hasUnderline := false,
    underlinedSegments := [] }

/-- C7 counterexample: three part-1 parses of figure paragraphs carrying an
image.  Input D: while collecting a solution, the figure text is skipped but
its image is NOT attached (the attach at line 655 is guarded by
`!inSolution`), leaving the question with no images, against the claim.
Input E: a figure text also containing `Chọn A` is consumed by the
unanchored explicit-answer branch (line 600); the answer is set and the
image is NOT attached.  Input F: a figure text also containing `PHẦN 2` is
skipped by the section-header filter (lines 525-531); the image is NOT
attached. -/
theorem find?_of_filter_singleton {p : Str → Bool} {l : List Str} {u : Str}
    (h : l.filter p = [u]) : l.find? p = some u := by
  induction l with
  | nil => simp at h
  | cons a t ih =>
    by_cases ha : p a
    · simp [List.filter_cons, ha] at h
      rcases h with ⟨rfl, -⟩
      simp [List.find?, ha]
    · simp [List.filter_cons, ha] at h
      simpa [List.find?, ha] using ih h

theorem flushQ1_correctAnswer (q : ParsedQuestion) (cb sb letters : List Str) :
    (flushQ1 q cb sb letters).correctAnswer =
      flushAnswerP1 q.correctAnswer letters := by
  unfold flushQ1
  split <;> split <;> rfl

-- ============================================================
-- C2
-- ============================================================

/-- C2: the Text Sanitizer is claimed to leave every inline and block math
region in place verbatim, escape only the non-math remainder, and preserve
the number and order of math regions for EVERY input.  The code contradicts
its own doc comment ("Escape HTML but preserve LaTeX blocks"): on the input
`$ $$x$$ $` the second protection pass matches an inline region that spans
the placeholder of the already-protected block `$$x$$`, so the restore loop
(which replaces placeholder 0 before placeholder 1) re-inserts the block
placeholder into the output: the block region is destroyed (count 1 drops
to 0) and the internal placeholder `__LATEX_BLOCK_0__` leaks into the
result.  This theorem evaluates the embedded code at the failing input. -/
theorem c2_code_evaluation :
    escapeHtmlPreserveLaTeX (str "$ $$x$$ $") = str "$ __LATEX_BLOCK_0__ $" ∧
    blockRegionCount (str "$ $$x$$ $") = 1 ∧
    blockRegionCount (escapeHtmlPreserveLaTeX (str "$ $$x$$ $")) = 0 := by
  decide

-- ============================================================
-- C3
-- ============================================================

/-- C3: the Text Normalizer is claimed to rewrite `\[...\]` to `$$...$$`
preserving the content, and to collapse runs of three or more dollars to
exactly two.  The code contradicts its own comments (`\[...\] => $$...$$`,
"Fix multiple consecutive $ signs"): the replacement template `'$$$$1$$$$'`
is parsed by ECMA GetSubstitution as four escaped dollars around a LITERAL
`1` (the capture is dropped), so `\[x\]` becomes `$$1$$`; and the template
`'$$'` is a single escaped dollar, so `$$$` collapses to `$`, not `$$`.
The second conjunct shows the inline template `'$$$1$$'` is well-formed by
contrast, confirming the block template and the collapse are slips. -/
theorem c3_code_evaluation :
    normalizeLatex (str "\\[x\\] u $$$ v") = str "$$1$$ u $ v" ∧
    normalizeLatex (str "\\(y+z\\)") = str "$y+z$" := by
  decide

-- ============================================================
-- C9
-- ============================================================

/-- C9 counterexample: on an `ExamData` with no questions at all, no question
has an empty stem, so the claim requires `valid = true` and an empty error
list; the code nevertheless reports one error ("no questions found") and
`valid = false`. -/
theorem c9_counterexample :
    emptyExam.questions = [] ∧
    (validateExamData emptyExam).1 = false ∧
    (validateExamData emptyExam).2 = [noQuestionsMsg] := by
  decide

theorem errors_foldl_filterMap (l : List Question) (acc : List Str) :
    l.foldl (fun acc q => if blankText q.text then acc ++ [missingTextMsg q.number] else acc) acc =
      acc ++ l.filterMap
        (fun q => if blankText q.text then some (missingTextMsg q.number) else none) := by
  induction l generalizing acc with
  | nil => simp
  | cons q t ih =>
    by_cases h : blankText q.text <;> simp [List.foldl_cons, h, ih]

/-- C9 amended: the validation errors are one leading "no questions" entry
when the question list is empty, followed by exactly one entry per question
with an empty (or whitespace-only) stem, in question order; `valid` is true
exactly when the question list is nonempty and no question has a blank stem. -/
theorem c9_amended (data : ExamData) :
    (validateExamData data).2 =
      (if data.questions = [] then [noQuestionsMsg] else []) ++
        data.questions.filterMap
          (fun q => if blankText q.text then some (missingTextMsg q.number) else none) ∧
    ((validateExamData data).1 = true ↔
      data.questions ≠ [] ∧ ∀ q ∈ data.questions, blankText q.text = false) := by
  constructor
  · unfold validateExamData
    simp only [errors_foldl_filterMap]
  · unfold validateExamData
    simp only [errors_foldl_filterMap, decide_eq_true_eq]
    constructor
    · intro h
      rcases List.append_eq_nil.mp h with ⟨h1, h2⟩
      constructor
      · intro hq
        simp [hq] at h1
      · intro q hq
        have := (List.filterMap_eq_nil_iff.mp h2) q hq
        by_contra hb
        simp [eq_true_of_ne_false hb] at this
    · rintro ⟨h1, h2⟩
      have e1 : (if data.questions = [] then [noQuestionsMsg] else ([] : List Str)) = [] := by
        simp [h1]
      rw [e1, List.nil_append, List.filterMap_eq_nil_iff]
      intro q hq
      simp [h2 q hq]

-- ============================================================
-- C10
-- ============================================================

theorem attachOne_id_nodup (images : List ImageData) (cur : List ImageData)
    (r : Str) (h : (cur.map (fun i => i.id)).Nodup) :
    ((attachOne images cur r).map (fun i => i.id)).Nodup := by
  unfold attachOne
  cases hres : resolveImage images r with
  | none => exact h
  | some img =>
    by_cases hmem : cur.any (fun i => i.id = img.id)
    · simpa [hmem] using h
    · have hnot : img.id ∉ cur.map (fun i => i.id) := by
        intro hin
        rcases List.mem_map.mp hin with ⟨i, hi, hid⟩
        have : cur.any (fun i => i.id = img.id) = true :=
          List.any_eq_true.mpr ⟨i, hi, by simp [hid]⟩
        exact hmem this
      simp only [hmem, Bool.false_eq_true, if_false, if_neg]
      simpa [List.nodup_append] using And.intro h hnot

theorem attachImages_id_nodup (images : List ImageData) (cur : List ImageData)
    (rIds : List Str) (h : (cur.map (fun i => i.id)).Nodup) :
    ((attachImages cur rIds images).map (fun i => i.id)).Nodup := by
  induction rIds generalizing cur with
  | nil => exact h
  | cons r t ih =>
    exact ih (attachOne images cur r) (attachOne_id_nodup images cur r h)

/-- C10: attaching images never duplicates an image id.  First conjunct: over
any sequence of `attachImages` calls (arbitrary relationship-id lists and
asset lists), a question image list whose ids are duplicate-free stays
duplicate-free.  Second conjunct: a single attach of a relationship id whose
resolved asset's id is already present leaves the list unchanged. -/
theorem c10_no_dup_images (cur : List ImageData)
    (calls : List (List Str × List ImageData))
    (h : (cur.map (fun i => i.id)).Nodup) :
    (((calls.foldl (fun c rc => attachImages c rc.1 rc.2) cur).map
        (fun i => i.id)).Nodup) ∧
    (∀ (r : Str) (images : List ImageData) (img : ImageData),
      resolveImage images r = some img →
      img.id ∈ cur.map (fun i => i.id) →
      attachImages cur [r] images = cur) := by
  constructor
  · induction calls generalizing cur with
    | nil => exact h
    | cons c t ih =>
      exact ih (attachImages cur c.1 c.2) (attachImages_id_nodup c.2 cur c.1 h)
  · intro r images img hres hin
    have hany : cur.any (fun i => i.id = img.id) = true := by
      rcases List.mem_map.mp hin with ⟨i, hi, hid⟩
      exact List.any_eq_true.mpr ⟨i, hi, by simp [hid]⟩
    simp [attachImages, attachOne, hres, hany]

/-- Witness for C10 at a concrete question image list and call sequence. -/
theorem c10_witness :
    (([img1].map (fun i => i.id)).Nodup) ∧
    ((([([str "rId1", str "rId9"], [img1])].foldl
        (fun c rc => attachImages c rc.1 rc.2) [img1]).map
        (fun i => i.id)).Nodup) ∧
    attachImages [img1] [str "rId1"] [img1] = [img1] := by
  have hn : (([img1].map (fun i => i.id)).Nodup) := by decide
  have h := c10_no_dup_images [img1] [([str "rId1", str "rId9"], [img1])] hn
  refine ⟨hn, h.1, h.2 (str "rId1") [img1] img1 (by decide) (by decide)⟩

-- ============================================================
-- C5
-- ============================================================

/-- C5: for a section-1 question flushed with no explicit answer set — in
`parsePart1WithUnderline` the only assignment of `correctAnswer` before the
flush is the explicit `Chọn X` marker branch (lines 599-604), so a question
none of whose paragraphs matched the marker reaches the flush with
`correctAnswer = null` — the underline inference (lines 542-549, 663-669)
takes the first recorded underlined segment that is a single letter A-D,
uppercased.  Second conjunct: in particular, when exactly one recorded
segment is a single letter, the answer is that letter, uppercased. -/
theorem c5_underline_inference (q : ParsedQuestion) (cb sb letters : List Str)
    (u : Str) (hca : q.correctAnswer = none) :
    (letters.find? isSingleAD = some u →
      (flushQ1 q cb sb letters).correctAnswer = some (jsToUpperStr u)) ∧
    (letters.filter isSingleAD = [u] →
      (flushQ1 q cb sb letters).correctAnswer = some (jsToUpperStr u)) := by
  have hmain : letters.find? isSingleAD = some u →
      (flushQ1 q cb sb letters).correctAnswer = some (jsToUpperStr u) := by
    intro hfind
    rw [flushQ1_correctAnswer, hca]
    have hne : letters ≠ [] := by
      intro he
      rw [he] at hfind
      simp [List.find?] at hfind
    unfold flushAnswerP1
    simp [truthy, hne, hfind]
  exact ⟨hmain, fun hf => hmain (find?_of_filter_singleton hf)⟩

/-- Witness for C5: flushing a fresh question whose recorded underline
segments are a clause and the single letter `b`. -/
theorem c5_witness :
    (newQ1 7).correctAnswer = none ∧
    ((([str "some clause", str "b"]).filter isSingleAD) = [str "b"]) ∧
    (flushQ1 (newQ1 7) [str "stem"] [] [str "some clause", str "b"]).correctAnswer =
      some (str "B") := by
  refine ⟨by decide, by decide, ?_⟩
  have h := c5_underline_inference (newQ1 7) [str "stem"] []
    [str "some clause", str "b"] (str "b") (by decide)
  have := h.2 (by decide)
  simpa using this

-- ============================================================
-- C6 machinery
-- ============================================================

theorem sorted_lt_sublist :
    ∀ (u : List Char), List.Sorted (· < ·) u →
    ∀ (l : List Char), List.Sorted (· < ·) l →
    (∀ x ∈ l, x ∈ u) → l.Sublist u := by
  intro u
  induction u with
  | nil =>
    intro _ l _ hsub
    cases l with
    | nil => exact List.Sublist.refl []
    | cons x l2 => exact absurd (hsub x (by simp)) (by simp)
  | cons a u2 ih =>
    intro hu l hl hsub
    cases l with
    | nil => exact List.nil_sublist _
    | cons x l2 =>
      by_cases hx : x = a
      · subst hx
        refine List.Sublist.cons₂ x ?_
        refine ih hu.of_cons l2 hl.of_cons ?_
        intro y hy
        have hyx : x < y := List.rel_of_sorted_cons hl y hy
        have : y ∈ x :: u2 := hsub y (List.mem_cons_of_mem x hy)
        rcases List.mem_cons.mp this with rfl | h2
        · exact absurd hyx (lt_irrefl y)
        · exact h2
      · have hxu2 : x ∈ u2 := by
          rcases List.mem_cons.mp (hsub x (by simp)) with rfl | h2
          · exact absurd rfl hx
          · exact h2
        refine List.Sublist.cons a ?_
        refine ih hu.of_cons (x :: l2) hl ?_
        intro y hy
        rcases List.mem_cons.mp hy with rfl | hy2
        · exact hxu2
        · have hax : a < x := List.rel_of_sorted_cons hu x hxu2
          have hxy : x < y := List.rel_of_sorted_cons hl y hy2
          rcases List.mem_cons.mp (hsub y hy) with rfl | h2
          · exact absurd (hax.trans hxy) (lt_irrefl y)
          · exact h2

/-- The validity predicate stated by claim C6 for a true/false answer value:
if non-null, it is the comma-join of a nonempty sublist of `a,b,c,d`
(sublist = subset, alphabetically sorted, duplicate-free). -/
theorem sortChars_sorted_lt (ts : List Char) (hnd : ts.Nodup) :
    List.Sorted (· < ·) (sortChars ts) := by
  have hle : List.Sorted (· ≤ ·) (sortChars ts) :=
    List.sorted_insertionSort (· ≤ ·) ts
  have hndS : (sortChars ts).Nodup :=
    ((List.perm_insertionSort (fun a b => a ≤ b) ts).nodup_iff).mpr hnd
  exact hle.lt_of_le hndS

theorem flushAnswerP2_valid (ts : List Char) (hnd : ts.Nodup)
    (hsub : ∀ c ∈ ts, c ∈ abcdL) : ansValid (flushAnswerP2 none ts) := by
  intro a ha
  unfold flushAnswerP2 at ha
  by_cases hts : ts = ([] : List Char)
  · rw [if_neg (by simp [truthy, hts])] at ha
    exact absurd ha (by simp)
  · rw [if_pos (by simp [truthy, hts])] at ha
    refine ⟨sortChars ts, ?_, ?_, (Option.some.inj ha).symm⟩
    · intro h0
      have hperm : List.Perm (sortChars ts) ts :=
        List.perm_insertionSort (fun a b => a ≤ b) ts
      rw [h0] at hperm
      exact hts hperm.symm.eq_nil
    · refine sorted_lt_sublist abcdL (by decide) _ (sortChars_sorted_lt ts hnd) ?_
      intro x hx
      exact hsub x ((List.mem_insertionSort (fun a b => a ≤ b)).mp hx)

theorem flushQ2_correctAnswer (q : ParsedQuestion) (cb sb : List Str)
    (ts : List Char) :
    (flushQ2 q cb sb ts).correctAnswer = flushAnswerP2 q.correctAnswer ts := by
  unfold flushQ2
  split <;> split <;> rfl

theorem optMatch_letter {s : Str} {lt : Char × Str} (h : optMatch s = some lt) :
    isLetterAD lt.1 = true := by
  unfold optMatch at h
  split at h
  · exact absurd h (by simp)
  · split at h
    · split at h
      · split at h
        · cases h
          assumption
        · exact absurd h (by simp)
      · exact absurd h (by simp)
    · exact absurd h (by simp)

theorem jsToLower_ad {c : Char} (h : isLetterAD c = true) :
    jsToLower c ∈ abcdL := by
  unfold isLetterAD at h
  simp only [Bool.or_eq_true, decide_eq_true_eq] at h
  rcases h with ((((((h | h) | h) | h) | h) | h) | h) | h <;> subst h <;> decide

theorem jsToLower_abcd {c : Char} (h : c ∈ abcdL) : jsToLower c = c := by
  fin_cases h <;> decide

theorem setAdd_nodup {s : List Char} {c : Char} (h : s.Nodup) :
    (setAdd s c).Nodup := by
  unfold setAdd
  by_cases hc : c ∈ s
  · simpa [hc] using h
  · simp only [hc, if_neg, if_false]
    simpa [List.nodup_append] using And.intro h hc

theorem setAdd_mem {s : List Char} {c x : Char} (h : x ∈ setAdd s c) :
    x ∈ s ∨ x = c := by
  unfold setAdd at h
  by_cases hc : c ∈ s
  · rw [if_pos hc] at h; exact Or.inl h
  · rw [if_neg hc] at h
    rcases List.mem_append.mp h with h2 | h2
    · exact Or.inl h2
    · simp at h2; exact Or.inr h2

theorem appendOptText_letters {opts : List QuestionOption} {idx : Nat} {t : Str}
    (h : ∀ o ∈ opts, o.letter ∈ abcdL) :
    ∀ o ∈ appendOptText opts idx t, o.letter ∈ abcdL := by
  intro o ho
  unfold appendOptText at ho
  cases hg : opts.get? idx with
  | none => rw [hg] at ho; exact h o ho
  | some o0 =>
    rw [hg] at ho
    rcases List.mem_or_eq_of_mem_set ho with h2 | h2
    · exact h o h2
    · subst h2
      exact h o0 (List.get?_mem hg)

/-- Loop invariant of `parsePart2`: all flushed answers satisfy the C6 shape,
the in-progress question has no answer yet and only `a`-`d` statement
letters, and the underline set is a duplicate-free subset of `a`-`d`. -/
theorem pushIfText_valid {qs : List ParsedQuestion} {q0 : ParsedQuestion}
    (h : ∀ q ∈ qs, ansValid q.correctAnswer) (h0 : ansValid q0.correctAnswer) :
    ∀ q ∈ pushIfText qs q0, ansValid q.correctAnswer := by
  intro q hq
  unfold pushIfText at hq
  split at hq
  · rcases List.mem_append.mp hq with h2 | h2
    · exact h q h2
    · simp at h2; subst h2; exact h0
  · exact h q hq

theorem flushQ2_valid {q : ParsedQuestion} {cb sb : List Str} {ts : List Char}
    (hq : q.correctAnswer = none) (hnd : ts.Nodup)
    (hsub : ∀ c ∈ ts, c ∈ abcdL) :
    ansValid (flushQ2 q cb sb ts).correctAnswer := by
  rw [flushQ2_correctAnswer]
  rw [hq]
  exact flushAnswerP2_valid ts hnd hsub

theorem p2Step_inv (images : List ImageData) (st : P2State)
    (para : ParagraphData) (h : P2Inv st) : P2Inv (p2Step images st para) := by
  obtain ⟨h1, h2, h3, h4⟩ := h
  unfold p2Step
  dsimp only
  split
  · exact ⟨h1, h2, h3, h4⟩
  split
  · exact ⟨h1, h2, h3, h4⟩
  split
  · -- qMatch branch
    refine ⟨?_, ?_, by simp, by simp⟩
    · cases hc : st.currentQ with
      | none => simpa [hc] using h1
      | some q =>
        simp only [hc]
        exact pushIfText_valid h1 (flushQ2_valid (h2 q hc).1 h3 h4)
    · intro q' hq'
      simp only [Option.some.injEq] at hq'
      subst hq'
      constructor
      · simp [newQ2, attachIf]
      · intro o ho
        simp [newQ2, attachIf] at ho
  · -- qMatch = none
    split
    · exact ⟨h1, h2, h3, h4⟩
    · rename_i q hc
      split
      · -- Lời giải branch
        refine ⟨h1, ?_, h3, h4⟩
        intro q' hq'
        simp only [Option.some.injEq] at hq'
        subst hq'
        split
        · exact ⟨(h2 q hc).1, (h2 q hc).2⟩
        · exact h2 q hc
      · split
        · -- statement branch
          rename_i lt heq
          have hlet : isLetterAD lt.1 = true := by
            by_cases hcc : st.collectingContent = true
            · rw [if_pos hcc] at heq
              exact optMatch_letter heq
            · rw [if_neg hcc] at heq
              exact absurd heq (by simp)
          have hoptsq : ∀ o ∈ q.options, o.letter ∈ abcdL := (h2 q hc).2
          have hcaq : q.correctAnswer = none := (h2 q hc).1
          refine ⟨h1, ?_, ?_, ?_⟩
          · intro q' hq'
            simp only [Option.some.injEq] at hq'
            subst hq'
            constructor
            · split <;> simpa using hcaq
            · intro o ho
              have : ∀ o2 ∈ (if (q.options = [] && st.contentBuffer ≠ []) = true then
                  { q with text := jsTrim (joinSp st.contentBuffer) } else q).options,
                  o2.letter ∈ abcdL := by
                split <;> simpa using hoptsq
              rcases List.mem_append.mp ho with h5 | h5
              · exact this o h5
              · simp at h5
                subst h5
                exact jsToLower_ad hlet
          · dsimp only
            split
            · exact setAdd_nodup h3
            · exact h3
          · intro c hcm
            dsimp only at hcm
            split at hcm
            · rcases setAdd_mem hcm with h5 | h5
              · exact h4 c h5
              · subst h5; exact jsToLower_ad hlet
            · exact h4 c hcm
        · split
          · -- continuation branch
            have hoptsq : ∀ o ∈ q.options, o.letter ∈ abcdL := (h2 q hc).2
            have hcaq : q.correctAnswer = none := (h2 q hc).1
            refine ⟨h1, ?_, ?_, ?_⟩
            · intro q' hq'
              simp only [Option.some.injEq] at hq'
              subst hq'
              constructor
              · split <;> simpa using hcaq
              · intro o ho
                simp only at ho
                split at ho
                · exact appendOptText_letters hoptsq o ho
                · exact hoptsq o ho
            · dsimp only
              split
              · split
                · exact setAdd_nodup h3
                · exact h3
              · exact h3
            · intro c hcm
              dsimp only at hcm
              split at hcm
              · split at hcm
                · rename_i o0 hg
                  rcases setAdd_mem hcm with h5 | h5
                  · exact h4 c h5
                  · subst h5
                    have ho0 : o0.letter ∈ abcdL := hoptsq o0 (List.get?_mem hg)
                    rw [jsToLower_abcd ho0]
                    exact ho0
                · exact h4 c hcm
              · exact h4 c hcm
          · split
            · -- figure-in-stem branch
              refine ⟨h1, ?_, h3, h4⟩
              intro q' hq'
              simp only [Option.some.injEq] at hq'
              subst hq'
              exact ⟨(h2 q hc).1, (h2 q hc).2⟩
            · -- fallthrough
              refine ⟨h1, ?_, h3, h4⟩
              intro q' hq'
              simp only [Option.some.injEq] at hq'
              subst hq'
              constructor
              · split <;> simpa using (h2 q hc).1
              · intro o ho
                have := (h2 q hc).2
                revert ho
                split <;> exact fun ho => this o ho

theorem p2_fold_inv (images : List ImageData) (ps : List ParagraphData)
    (st : P2State) (h : P2Inv st) : P2Inv (ps.foldl (p2Step images) st) := by
  induction ps generalizing st with
  | nil => exact h
  | cons p t ih => exact ih (p2Step images st p) (p2Step_inv images st p h)

theorem p2Finish_valid (st : P2State) (h : P2Inv st) :
    ∀ q ∈ p2Finish st, ansValid q.correctAnswer := by
  intro q hq
  unfold p2Finish sortByNumber at hq
  rw [List.mem_insertionSort] at hq
  obtain ⟨h1, h2, h3, h4⟩ := h
  cases hc : st.currentQ with
  | none => rw [hc] at hq; exact h1 q hq
  | some q0 =>
    rw [hc] at hq
    exact pushIfText_valid h1 (flushQ2_valid (h2 q0 hc).1 h3 h4) q hq

theorem p2Init_inv : P2Inv p2Init := by
  refine ⟨?_, ?_, ?_, ?_⟩ <;> simp [p2Init]

theorem parsePart2_valid (paragraphs : List ParagraphData) (startIdx endIdx : Nat)
    (images : List ImageData) :
    ∀ q ∈ parsePart2 paragraphs startIdx endIdx images, ansValid q.correctAnswer := by
  intro q hq
  unfold parsePart2 at hq
  split at hq
  · simp at hq
  · exact p2Finish_valid _
      (p2_fold_inv images (sliceRange paragraphs startIdx endIdx) p2Init p2Init_inv) q hq

-- ============================================================
-- C6
-- ============================================================

/-- C6: every section-2 question's answer is computed from THAT question's
underlined statement letters.  First conjunct: the flush of every part-2
question commits `flushAnswerP2` applied to the question's pre-flush answer
and its underline set (lines 714-724, 822-832).  Second conjunct: with no
pre-set answer and a nonempty underline set `ts`, the committed answer IS
`joinComma (sortChars ts)` — the comma-join of exactly the flagged letters,
alphabetically sorted (lines 718-723, 826-830).  Third conjunct: with no
pre-set answer, the answer is null exactly when no statement letter was
flagged underlined (the question is left ungraded).  Fourth conjunct: for
every run of the section-2 parser over any paragraph range, every produced
question's `correctAnswer`, when non-null, is the comma-join of a nonempty
sublist of `a,b,c,d` — an alphabetically sorted, duplicate-free subset of
the four statement letters. -/
theorem c6_tf_answers :
    (∀ (q : ParsedQuestion) (cb sb : List Str) (ts : List Char),
       (flushQ2 q cb sb ts).correctAnswer = flushAnswerP2 q.correctAnswer ts) ∧
    (∀ ts : List Char, ts ≠ [] →
       flushAnswerP2 none ts = some (joinComma (sortChars ts))) ∧
    (∀ ts : List Char, flushAnswerP2 none ts = none ↔ ts = []) ∧
    (∀ (paragraphs : List ParagraphData) (startIdx endIdx : Nat)
       (images : List ImageData) (q : ParsedQuestion) (a : Str),
       q ∈ parsePart2 paragraphs startIdx endIdx images →
       q.correctAnswer = some a →
       ∃ s : List Char, s ≠ [] ∧ s.Sublist abcdL ∧ a = joinComma s) := by
  refine ⟨?_, ?_, ?_, ?_⟩
  · intro q cb sb ts
    exact flushQ2_correctAnswer q cb sb ts
  · intro ts hne
    unfold flushAnswerP2
    rw [if_pos (by simp [truthy, hne])]
  · intro ts
    constructor
    · intro h
      by_contra hne
      rw [show flushAnswerP2 none ts =
        some (joinComma (sortChars ts)) from by
          unfold flushAnswerP2
          rw [if_pos (by simp [truthy, hne])]] at h
      exact absurd h (by simp)
    · intro h
      subst h
      unfold flushAnswerP2
      rw [if_neg (by simp [truthy])]
  · intro paragraphs startIdx endIdx images q a hq ha
    exact parsePart2_valid paragraphs startIdx endIdx images q hq a ha

/-- Witness for C6 on input A and on the concrete underline set `['b','a']`:
the flush relation at a concrete question, the exact sorted-join identity
(evaluating to `"a,b"`), the empty-set null case, and the parsed section-2
question whose answer string `"a"` decomposes as required. -/
theorem c6_witness :
    (flushQ2 (newQ2 1) [] [] ['b', 'a']).correctAnswer =
      flushAnswerP2 (newQ2 1).correctAnswer ['b', 'a'] ∧
    (['b', 'a'] : List Char) ≠ [] ∧
    flushAnswerP2 none ['b', 'a'] = some (str "a,b") ∧
    (flushAnswerP2 none [] = none ↔ ([] : List Char) = []) ∧
    q2A ∈ parsePart2 psA 0 3 [] ∧
    q2A.correctAnswer = some (str "a") ∧
    (∃ s : List Char, s ≠ [] ∧ s.Sublist abcdL ∧ str "a" = joinComma s) := by
  refine ⟨c6_tf_answers.1 (newQ2 1) [] [] ['b', 'a'], by decide, ?_,
    c6_tf_answers.2.2.1 [], by decide, by decide, ?_⟩
  · rw [c6_tf_answers.2.1 ['b', 'a'] (by decide)]
    decide
  · exact c6_tf_answers.2.2.2 psA 0 3 [] q2A (str "a") (by decide) (by decide)

-- ============================================================
-- Part-field invariants (for C4 and C8)
-- ============================================================

theorem pushIfText_pred {P : ParsedQuestion → Prop} {qs : List ParsedQuestion}
    {q0 : ParsedQuestion} (h : ∀ q ∈ qs, P q) (h0 : P q0) :
    ∀ q ∈ pushIfText qs q0, P q := by
  intro q hq
  unfold pushIfText at hq
  split at hq
  · rcases List.mem_append.mp hq with h2 | h2
    · exact h q h2
    · simp at h2; subst h2; exact h0
  · exact h q hq

theorem flushQ1_part (q : ParsedQuestion) (cb sb ls : List Str) :
    (flushQ1 q cb sb ls).part = q.part := by
  unfold flushQ1
  split <;> split <;> rfl

theorem flushQ2_part (q : ParsedQuestion) (cb sb : List Str) (ts : List Char) :
    (flushQ2 q cb sb ts).part = q.part := by
  unfold flushQ2
  split <;> split <;> rfl

theorem flushQ3_part (q : ParsedQuestion) (cb sb : List Str) :
    (flushQ3 q cb sb).part = q.part := by
  unfold flushQ3
  split <;> split <;> rfl

theorem p1Step_part (images : List ImageData) (st : P1State) (para : ParagraphData)
    (h : P1PartInv st) : P1PartInv (p1Step images st para) := by
  obtain ⟨h1, h2⟩ := h
  unfold p1Step
  dsimp only
  split
  · exact ⟨h1, h2⟩
  split
  · exact ⟨h1, h2⟩
  split
  · -- question marker
    constructor
    · cases hc : st.currentQ with
      | none => simpa [hc] using h1
      | some q =>
        simp only [hc]
        exact pushIfText_pred h1 (by rw [flushQ1_part]; exact h2 q hc)
    · intro q' hq'
      dsimp only at hq'
      injection hq' with e
      subst e
      rfl
  · split
    · exact ⟨h1, h2⟩
    · rename_i q hc
      split
      · -- solution marker
        refine ⟨h1, ?_⟩
        intro q' hq'
        dsimp only at hq'
        injection hq' with e
        subst e
        split <;> exact h2 q hc
      · split
        · -- explicit answer
          refine ⟨h1, ?_⟩
          intro q' hq'
          dsimp only at hq'
          injection hq' with e
          subst e
          exact h2 q hc
        · split
          · -- option line
            refine ⟨h1, ?_⟩
            intro q' hq'
            dsimp only at hq'
            injection hq' with e
            subst e
            show (if _ = true then _ else q).part = 1
            split <;> exact h2 q hc
          · split
            · -- option continuation
              refine ⟨h1, ?_⟩
              intro q' hq'
              dsimp only at hq'
              injection hq' with e
              subst e
              show (if _ then _ else q).part = 1
              split <;> exact h2 q hc
            · split
              · -- figure in stem
                refine ⟨h1, ?_⟩
                intro q' hq'
                dsimp only at hq'
                injection hq' with e
                subst e
                exact h2 q hc
              · -- fallthrough
                refine ⟨h1, ?_⟩
                intro q' hq'
                dsimp only at hq'
                injection hq' with e
                subst e
                show (if _ = true then _ else q).part = 1
                split <;> exact h2 q hc

theorem p2Step_part (images : List ImageData) (st : P2State) (para : ParagraphData)
    (h : P2PartInv st) : P2PartInv (p2Step images st para) := by
  obtain ⟨h1, h2⟩ := h
  unfold p2Step
  dsimp only
  split
  · exact ⟨h1, h2⟩
  split
  · exact ⟨h1, h2⟩
  split
  · constructor
    · cases hc : st.currentQ with
      | none => simpa [hc] using h1
      | some q =>
        simp only [hc]
        exact pushIfText_pred h1 (by rw [flushQ2_part]; exact h2 q hc)
    · intro q' hq'
      dsimp only at hq'
      injection hq' with e
      subst e
      rfl
  · split
    · exact ⟨h1, h2⟩
    · rename_i q hc
      split
      · refine ⟨h1, ?_⟩
        intro q' hq'
        dsimp only at hq'
        injection hq' with e
        subst e
        split <;> exact h2 q hc
      · split
        · -- statement line
          refine ⟨h1, ?_⟩
          intro q' hq'
          dsimp only at hq'
          injection hq' with e
          subst e
          show (if _ = true then _ else q).part = 2
          split <;> exact h2 q hc
        · split
          · -- continuation
            refine ⟨h1, ?_⟩
            intro q' hq'
            dsimp only at hq'
            injection hq' with e
            subst e
            show (if _ then _ else q).part = 2
            split <;> exact h2 q hc
          · split
            · refine ⟨h1, ?_⟩
              intro q' hq'
              dsimp only at hq'
              injection hq' with e
              subst e
              exact h2 q hc
            · refine ⟨h1, ?_⟩
              intro q' hq'
              dsimp only at hq'
              injection hq' with e
              subst e
              show (if _ = true then _ else q).part = 2
              split <;> exact h2 q hc

theorem p3Step_part (images : List ImageData) (st : P3State) (para : ParagraphData)
    (h : P3PartInv st) : P3PartInv (p3Step images st para) := by
  obtain ⟨h1, h2⟩ := h
  unfold p3Step
  dsimp only
  split
  · exact ⟨h1, h2⟩
  split
  · exact ⟨h1, h2⟩
  split
  · constructor
    · cases hc : st.currentQ with
      | none => simpa [hc] using h1
      | some q =>
        simp only [hc]
        exact pushIfText_pred h1 (by rw [flushQ3_part]; exact h2 q hc)
    · intro q' hq'
      dsimp only at hq'
      injection hq' with e
      subst e
      rfl
  · split
    · exact ⟨h1, h2⟩
    · rename_i q hc
      split
      · refine ⟨h1, ?_⟩
        intro q' hq'
        dsimp only at hq'
        injection hq' with e
        subst e
        split <;> exact h2 q hc
      · split
        · -- answer line
          refine ⟨h1, ?_⟩
          intro q' hq'
          dsimp only at hq'
          injection hq' with e
          subst e
          exact h2 q hc
        · split
          · -- figure in stem
            refine ⟨h1, ?_⟩
            intro q' hq'
            dsimp only at hq'
            injection hq' with e
            subst e
            exact h2 q hc
          · refine ⟨h1, ?_⟩
            intro q' hq'
            dsimp only at hq'
            injection hq' with e
            subst e
            show (if _ then _ else q).part = 3
            split <;> exact h2 q hc

theorem parsePart1_part (paragraphs : List ParagraphData) (startIdx endIdx : Nat)
    (images : List ImageData) :
    ∀ q ∈ parsePart1WithUnderline paragraphs startIdx endIdx images, q.part = 1 := by
  intro q hq
  unfold parsePart1WithUnderline at hq
  split at hq
  · simp at hq
  · unfold p1Finish sortByNumber at hq
    rw [List.mem_insertionSort] at hq
    have hinv : P1PartInv ((sliceRange paragraphs startIdx endIdx).foldl
        (p1Step images) p1Init) := by
      have : P1PartInv p1Init := by
        refine ⟨?_, ?_⟩ <;> simp [p1Init]
      generalize p1Init = st0 at this ⊢
      induction (sliceRange paragraphs startIdx endIdx) generalizing st0 with
      | nil => exact this
      | cons p t ih => exact ih (p1Step images st0 p) (p1Step_part images st0 p this)
    obtain ⟨h1, h2⟩ := hinv
    cases hc : ((sliceRange paragraphs startIdx endIdx).foldl
        (p1Step images) p1Init).currentQ with
    | none => rw [hc] at hq; exact h1 q hq
    | some q0 =>
      rw [hc] at hq
      exact pushIfText_pred h1 (by rw [flushQ1_part]; exact h2 q0 hc) q hq

theorem parsePart2_part (paragraphs : List ParagraphData) (startIdx endIdx : Nat)
    (images : List ImageData) :
    ∀ q ∈ parsePart2 paragraphs startIdx endIdx images, q.part = 2 := by
  intro q hq
  unfold parsePart2 at hq
  split at hq
  · simp at hq
  · unfold p2Finish sortByNumber at hq
    rw [List.mem_insertionSort] at hq
    have hinv : P2PartInv ((sliceRange paragraphs startIdx endIdx).foldl
        (p2Step images) p2Init) := by
      have : P2PartInv p2Init := by
        refine ⟨?_, ?_⟩ <;> simp [p2Init]
      generalize p2Init = st0 at this ⊢
      induction (sliceRange paragraphs startIdx endIdx) generalizing st0 with
      | nil => exact this
      | cons p t ih => exact ih (p2Step images st0 p) (p2Step_part images st0 p this)
    obtain ⟨h1, h2⟩ := hinv
    cases hc : ((sliceRange paragraphs startIdx endIdx).foldl
        (p2Step images) p2Init).currentQ with
    | none => rw [hc] at hq; exact h1 q hq
    | some q0 =>
      rw [hc] at hq
      exact pushIfText_pred h1 (by rw [flushQ2_part]; exact h2 q0 hc) q hq

theorem parsePart3_part (paragraphs : List ParagraphData) (startIdx endIdx : Nat)
    (images : List ImageData) :
    ∀ q ∈ parsePart3 paragraphs startIdx endIdx images, q.part = 3 := by
  intro q hq
  unfold parsePart3 at hq
  split at hq
  · simp at hq
  · unfold p3Finish sortByNumber at hq
    rw [List.mem_insertionSort] at hq
    have hinv : P3PartInv ((sliceRange paragraphs startIdx endIdx).foldl
        (p3Step images) p3Init) := by
      have : P3PartInv p3Init := by
        refine ⟨?_, ?_⟩ <;> simp [p3Init]
      generalize p3Init = st0 at this ⊢
      induction (sliceRange paragraphs startIdx endIdx) generalizing st0 with
      | nil => exact this
      | cons p t ih => exact ih (p3Step images st0 p) (p3Step_part images st0 p this)
    obtain ⟨h1, h2⟩ := hinv
    cases hc : ((sliceRange paragraphs startIdx endIdx).foldl
        (p3Step images) p3Init).currentQ with
    | none => rw [hc] at hq; exact h1 q hq
    | some q0 =>
      rw [hc] at hq
      exact pushIfText_pred h1 (by rw [flushQ3_part]; exact h2 q0 hc) q hq

-- ============================================================
-- C4 machinery
-- ============================================================

/-- The local `part1Questions` of `parseAllQuestions` (line 331). -/
theorem parseAll_questions_eq (paragraphs : List ParagraphData)
    (images : List ImageData) :
    (parseAllQuestions paragraphs images).questions =
      (part1Of paragraphs images).map (fun pq => convertToQuestion pq 0) ++
      (part2Of paragraphs images).map (fun pq => convertToQuestion pq 0) ++
      (part3Of paragraphs images).map (fun pq => convertToQuestion pq 0) := rfl

theorem parseAll_answers_eq (paragraphs : List ParagraphData)
    (images : List ImageData) :
    (parseAllQuestions paragraphs images).answers =
      (((part1Of paragraphs images).map (fun pq => convertToQuestion pq 0) ++
        (part3Of paragraphs images).map (fun pq => convertToQuestion pq 0)).foldl
          answersUpd []) := rfl

theorem part1Of_part (paragraphs : List ParagraphData) (images : List ImageData) :
    ∀ q ∈ part1Of paragraphs images, q.part = 1 :=
  fun q hq => parsePart1_part paragraphs _ _ images q hq

theorem part2Of_part (paragraphs : List ParagraphData) (images : List ImageData) :
    ∀ q ∈ part2Of paragraphs images, q.part = 2 :=
  fun q hq => parsePart2_part paragraphs _ _ images q hq

theorem part3Of_part (paragraphs : List ParagraphData) (images : List ImageData) :
    ∀ q ∈ part3Of paragraphs images, q.part = 3 :=
  fun q hq => parsePart3_part paragraphs _ _ images q hq

-- ============================================================
-- C4
-- ============================================================

/-- C4 counterexample: two section-1 questions may share the authored number
(input B has two `Câu 1.` markers before any section boundary), and the
encoding `part*100 + number` then collides: both final questions carry the
number 101, so encoded numbers are NOT unique across the exam for every
parse. -/
theorem c4_counterexample :
    ((parseAllQuestions psB []).questions.map (fun q => q.number)) = [101, 101] ∧
    ¬ ((parseAllQuestions psB []).questions.map (fun q => q.number)).Nodup := by
  constructor
  · decide
  · intro h
    rw [show ((parseAllQuestions psB []).questions.map (fun q => q.number)) =
      [101, 101] from by decide] at h
    simp at h

/-- C4 amended: for EVERY parse, every final question's number equals
`section_index * 100 + authored_number` with the section index in 1..3
(first conjunct, unconditional); and encoded numbers are unique across the
whole exam PROVIDED authored numbers are unique within each section and all
are below 100 (second conjunct; the source encodes but never checks this:
duplicated or three-digit authored numbers collide). -/
theorem c4_amended (paragraphs : List ParagraphData) (images : List ImageData) :
    (∀ q ∈ (parseAllQuestions paragraphs images).questions,
       ∃ pq ∈ part1Of paragraphs images ++ part2Of paragraphs images ++
         part3Of paragraphs images,
         q = convertToQuestion pq 0 ∧
         q.number = pq.part * 100 + pq.number ∧
         (pq.part = 1 ∨ pq.part = 2 ∨ pq.part = 3)) ∧
    (((part1Of paragraphs images).map (fun q => q.number)).Nodup →
     ((part2Of paragraphs images).map (fun q => q.number)).Nodup →
     ((part3Of paragraphs images).map (fun q => q.number)).Nodup →
     (∀ q ∈ part1Of paragraphs images ++ part2Of paragraphs images ++
       part3Of paragraphs images, q.number < 100) →
     ((parseAllQuestions paragraphs images).questions.map
       (fun q => q.number)).Nodup) := by
  constructor
  · intro q hq
    rw [parseAll_questions_eq] at hq
    rcases List.mem_append.mp hq with hq12 | hq3
    · rcases List.mem_append.mp hq12 with hq1 | hq2
      · rcases List.mem_map.mp hq1 with ⟨pq, hpq, rfl⟩
        exact ⟨pq, List.mem_append_left _ (List.mem_append_left _ hpq), rfl, rfl,
          Or.inl (part1Of_part paragraphs images pq hpq)⟩
      · rcases List.mem_map.mp hq2 with ⟨pq, hpq, rfl⟩
        exact ⟨pq, List.mem_append_left _ (List.mem_append_right _ hpq), rfl, rfl,
          Or.inr (Or.inl (part2Of_part paragraphs images pq hpq))⟩
    · rcases List.mem_map.mp hq3 with ⟨pq, hpq, rfl⟩
      exact ⟨pq, List.mem_append_right _ hpq, rfl, rfl,
        Or.inr (Or.inr (part3Of_part paragraphs images pq hpq))⟩
  · intro hnd1 hnd2 hnd3 hlt
    rw [parseAll_questions_eq]
    rw [List.map_append, List.map_append]
    have e1 : ((part1Of paragraphs images).map (fun pq => convertToQuestion pq 0)).map
        (fun q => q.number) = (part1Of paragraphs images).map (fun pq => 100 + pq.number) := by
      rw [List.map_map]
      refine List.map_congr_left ?_
      intro pq hpq
      show pq.part * 100 + pq.number = 100 + pq.number
      rw [part1Of_part paragraphs images pq hpq]
    have e2 : ((part2Of paragraphs images).map (fun pq => convertToQuestion pq 0)).map
        (fun q => q.number) = (part2Of paragraphs images).map (fun pq => 200 + pq.number) := by
      rw [List.map_map]
      refine List.map_congr_left ?_
      intro pq hpq
      show pq.part * 100 + pq.number = 200 + pq.number
      rw [part2Of_part paragraphs images pq hpq]
    have e3 : ((part3Of paragraphs images).map (fun pq => convertToQuestion pq 0)).map
        (fun q => q.number) = (part3Of paragraphs images).map (fun pq => 300 + pq.number) := by
      rw [List.map_map]
      refine List.map_congr_left ?_
      intro pq hpq
      show pq.part * 100 + pq.number = 300 + pq.number
      rw [part3Of_part paragraphs images pq hpq]
    rw [e1, e2, e3]
    have hm1 : ((part1Of paragraphs images).map (fun pq => 100 + pq.number)).Nodup := by
      have := hnd1.map (f := fun n => 100 + n) (fun a b h => by simp only [] at h; omega)
      rwa [List.map_map] at this
    have hm2 : ((part2Of paragraphs images).map (fun pq => 200 + pq.number)).Nodup := by
      have := hnd2.map (f := fun n => 200 + n) (fun a b h => by simp only [] at h; omega)
      rwa [List.map_map] at this
    have hm3 : ((part3Of paragraphs images).map (fun pq => 300 + pq.number)).Nodup := by
      have := hnd3.map (f := fun n => 300 + n) (fun a b h => by simp only [] at h; omega)
      rwa [List.map_map] at this
    have hb1 : ∀ x ∈ (part1Of paragraphs images).map (fun pq => 100 + pq.number),
        100 ≤ x ∧ x < 200 := by
      intro x hx
      rcases List.mem_map.mp hx with ⟨pq, hpq, rfl⟩
      have := hlt pq (List.mem_append_left _ (List.mem_append_left _ hpq))
      omega
    have hb2 : ∀ x ∈ (part2Of paragraphs images).map (fun pq => 200 + pq.number),
        200 ≤ x ∧ x < 300 := by
      intro x hx
      rcases List.mem_map.mp hx with ⟨pq, hpq, rfl⟩
      have := hlt pq (List.mem_append_left _ (List.mem_append_right _ hpq))
      omega
    have hb3 : ∀ x ∈ (part3Of paragraphs images).map (fun pq => 300 + pq.number),
        300 ≤ x ∧ x < 400 := by
      intro x hx
      rcases List.mem_map.mp hx with ⟨pq, hpq, rfl⟩
      have := hlt pq (List.mem_append_right _ hpq)
      omega
    rw [List.append_assoc, List.nodup_append]
    refine ⟨hm1, ?_, ?_⟩
    · rw [List.nodup_append]
      refine ⟨hm2, hm3, ?_⟩
      intro x hx2 hx3
      have b2 := hb2 x hx2
      have b3 := hb3 x hx3
      omega
    · intro x hx1 hx23
      have b1 := hb1 x hx1
      rcases List.mem_append.mp hx23 with hx2 | hx3
      · have b2 := hb2 x hx2
        omega
      · have b3 := hb3 x hx3
        omega

/-- Witness for C4 on input I (two section-1 questions with distinct
authored numbers below 100): the uniqueness hypotheses hold and the encoded
numbers are unique. -/
theorem c4_witness :
    (((part1Of psI []).map (fun q => q.number)).Nodup) ∧
    (((part2Of psI []).map (fun q => q.number)).Nodup) ∧
    (((part3Of psI []).map (fun q => q.number)).Nodup) ∧
    (∀ q ∈ part1Of psI [] ++ part2Of psI [] ++ part3Of psI [], q.number < 100) ∧
    ((parseAllQuestions psI []).questions.map (fun q => q.number)).Nodup :=
  ⟨by decide, by decide, by decide, by decide,
    (c4_amended psI []).2 (by decide) (by decide) (by decide) (by decide)⟩

-- ============================================================
-- C1 machinery
-- ============================================================

/-- The questions whose conversion feeds the answer key: the section-1 and
section-3 converted questions, in assembly order. -/
theorem lookupKey_setKey (m : List (Nat × Str)) (k : Nat) (v : Str) (n : Nat) :
    lookupKey (setKey m k v) n = if k = n then some v else lookupKey m n := by
  induction m with
  | nil => by_cases h : k = n <;> simp [setKey, lookupKey, h]
  | cons p rest ih =>
    obtain ⟨k0, v0⟩ := p
    by_cases h0 : k0 = k
    · subst h0
      by_cases hn : k0 = n <;> simp [setKey, lookupKey, hn]
    · by_cases hn : k0 = n
      · subst hn
        have hkn : ¬ (k = k0) := fun e => h0 e.symm
        simp [setKey, lookupKey, h0, hkn]
      · simp [setKey, lookupKey, h0, hn, ih]

theorem lookup_foldl_answersUpd (l : List Question) (base : List (Nat × Str)) (n : Nat) :
    lookupKey (l.foldl answersUpd base) n =
      match (l.filter (fun q => truthy q.correctAnswer && q.number = n)).getLast? with
      | some q => some (q.correctAnswer.getD [])
      | none => lookupKey base n := by
  induction l generalizing base with
  | nil => simp
  | cons q t ih =>
    rw [List.foldl_cons, ih (answersUpd base q)]
    by_cases hP : (truthy q.correctAnswer && q.number = n) = true
    · rw [show List.filter (fun q => truthy q.correctAnswer && q.number = n) (q :: t) =
        q :: List.filter (fun q => truthy q.correctAnswer && q.number = n) t from by
          simp [List.filter_cons, hP]]
      obtain ⟨htr, hnum⟩ : truthy q.correctAnswer = true ∧ q.number = n := by
        simpa using hP
      cases hft : List.filter (fun q => truthy q.correctAnswer && q.number = n) t with
      | nil =>
        unfold answersUpd
        rw [if_pos htr, lookupKey_setKey, hnum, if_pos rfl]
        rfl
      | cons f fs =>
        have h1 : (q :: f :: fs).getLast? = (f :: fs).getLast? :=
          List.getLast?_cons_cons
        rw [h1, List.getLast?_eq_getLast_of_ne_nil (List.cons_ne_nil f fs)]
    · rw [show List.filter (fun q => truthy q.correctAnswer && q.number = n) (q :: t) =
        List.filter (fun q => truthy q.correctAnswer && q.number = n) t from by
          simp [List.filter_cons, hP]]
      cases hft : List.filter (fun q => truthy q.correctAnswer && q.number = n) t with
      | nil =>
        unfold answersUpd
        by_cases htr : truthy q.correctAnswer = true
        · have hnum : ¬ (q.number = n) := by
            intro e
            exact hP (by simp [htr, e])
          rw [if_pos htr, lookupKey_setKey, if_neg hnum]
        · rw [if_neg htr]
      | cons f fs => rfl

-- ============================================================
-- C1
-- ============================================================

/-- C1 counterexample, three concrete parses refuting three aspects of the
claim as stated.  Input A: a section-2 (true/false) question with non-null
`correctAnswer` `"a"` whose number 201 is NOT a key of `ExamData.answers`
(the section-2 assembly loop, lines 361-376, never writes the answer key).
Input B: two section-1 questions share number 101 with answers `"A"` and
`"B"`; the key maps 101 only to `"B"`, so it does not map to "exactly that
answer" for each such question.  Input C: a section-3 question with the
non-null but empty answer (trimmed from an answer line with only whitespace
after the colon) is also absent from the key, because the guard at line 385
tests JavaScript truthiness, not null-ness. -/
theorem c1_counterexample :
    ((parseAllQuestions psA []).questions.map (fun q => (q.number, q.correctAnswer))) =
      [(201, some (str "a"))] ∧
    (parseAllQuestions psA []).answers = [] ∧
    ((parseAllQuestions psB []).questions.map (fun q => (q.number, q.correctAnswer))) =
      [(101, some (str "A")), (101, some (str "B"))] ∧
    (parseAllQuestions psB []).answers = [(101, str "B")] ∧
    ((parseAllQuestions psC []).questions.map (fun q => (q.number, q.correctAnswer))) =
      [(101, none), (301, some [])] ∧
    (parseAllQuestions psC []).answers = [] := by
  refine ⟨by decide, by decide, by decide, by decide, by decide, by decide⟩

/-- C1 amended: a question number `n` is a key of `ExamData.answers` iff some
SECTION-1 OR SECTION-3 question has number `n` and a non-null, NONEMPTY
correct answer (section-2 questions never reach the key; an empty-string
answer fails the truthiness guard); and the key maps `n` to the answer of
the LAST such question in assembly order (later questions with the same
encoded number overwrite earlier ones). -/
theorem c1_amended (paragraphs : List ParagraphData) (images : List ImageData)
    (n : Nat) :
    ((lookupKey (parseAllQuestions paragraphs images).answers n ≠ none) ↔
      ∃ q ∈ sec13Of paragraphs images,
        q.number = n ∧ truthy q.correctAnswer = true) ∧
    (∀ a : Str,
      lookupKey (parseAllQuestions paragraphs images).answers n = some a ↔
      ((sec13Of paragraphs images).filter
          (fun q => truthy q.correctAnswer && q.number = n)).getLast?.map
        (fun q => q.correctAnswer.getD []) = some a) := by
  have hbase : (parseAllQuestions paragraphs images).answers =
      (sec13Of paragraphs images).foldl answersUpd [] := parseAll_answers_eq paragraphs images
  have hkey : lookupKey (parseAllQuestions paragraphs images).answers n =
      ((sec13Of paragraphs images).filter
          (fun q => truthy q.correctAnswer && q.number = n)).getLast?.map
        (fun q => q.correctAnswer.getD []) := by
    rw [hbase, lookup_foldl_answersUpd]
    cases ((sec13Of paragraphs images).filter
        (fun q => truthy q.correctAnswer && q.number = n)).getLast? with
    | none => rfl
    | some q => rfl
  constructor
  · rw [hkey]
    constructor
    · intro hne
      cases hl : ((sec13Of paragraphs images).filter
          (fun q => truthy q.correctAnswer && q.number = n)).getLast? with
      | none => rw [hl] at hne; simp at hne
      | some q =>
        have hmem2 : q ∈ ((sec13Of paragraphs images).filter
            (fun q => truthy q.correctAnswer && q.number = n)).getLast? :=
          Option.mem_def.mpr hl
        rcases List.mem_getLast?_eq_getLast hmem2 with ⟨hne2, heq⟩
        have hmemf : q ∈ (sec13Of paragraphs images).filter
            (fun q => truthy q.correctAnswer && q.number = n) := by
          rw [heq]
          exact List.getLast_mem hne2
        have hfq := List.of_mem_filter hmemf
        obtain ⟨htr, hnum⟩ : truthy q.correctAnswer = true ∧ q.number = n := by
          simpa using hfq
        exact ⟨q, List.mem_of_mem_filter hmemf, hnum, htr⟩
    · rintro ⟨q, hq, hnum, htr⟩
      have hmemf : q ∈ (sec13Of paragraphs images).filter
          (fun q => truthy q.correctAnswer && q.number = n) :=
        List.mem_filter.mpr ⟨hq, by simp [htr, hnum]⟩
      have hne : (sec13Of paragraphs images).filter
          (fun q => truthy q.correctAnswer && q.number = n) ≠ [] :=
        List.ne_nil_of_mem hmemf
      cases hl : ((sec13Of paragraphs images).filter
          (fun q => truthy q.correctAnswer && q.number = n)).getLast? with
      | none => exact absurd (List.getLast?_eq_none_iff.mp hl) hne
      | some q0 => simp
  · intro a
    rw [hkey]

-- ============================================================
-- C8 machinery
-- ============================================================

/-- A paragraph text that matches none of the three section-header pattern
cascades of `detectSections`. -/
theorem detectStep_skip (ip : Nat × ParagraphData) (info : SectionInfo)
    (h : noSectionHeader ip.2.text = true) : detectStep ip info = info := by
  have h123 : testAny part1Pats ip.2.text = false ∧
      testAny part2Pats ip.2.text = false ∧ testAny part3Pats ip.2.text = false := by
    unfold noSectionHeader at h
    rcases hb1 : testAny part1Pats ip.2.text <;>
      rcases hb2 : testAny part2Pats ip.2.text <;>
        rcases hb3 : testAny part3Pats ip.2.text <;>
          simp [hb1, hb2, hb3] at h ⊢
  obtain ⟨h1, h2, h3⟩ := h123
  unfold detectStep
  simp [h1, h2, h3]

theorem parseAll_sections_eq (paragraphs : List ParagraphData)
    (images : List ImageData) :
    (parseAllQuestions paragraphs images).sections =
      (if part1Of paragraphs images ≠ [] then
        [{ name := str "PHẦN 1. Trắc nghiệm nhiều lựa chọn"
           description := str "Thí sinh chọn một phương án đúng A, B, C hoặc D"
           points := []
           questions := (part1Of paragraphs images).map (fun pq => convertToQuestion pq 0)
           sectionType := QuestionType.multiple_choice }]
      else []) ++
      (if part2Of paragraphs images ≠ [] then
        [{ name := str "PHẦN 2. Trắc nghiệm đúng sai"
           description := str "Thí sinh chọn Đúng hoặc Sai cho mỗi ý a), b), c), d)"
           points := []
           questions := (part2Of paragraphs images).map (fun pq => convertToQuestion pq 0)
           sectionType := QuestionType.true_false }]
      else []) ++
      (if part3Of paragraphs images ≠ [] then
        [{ name := str "PHẦN 3. Trắc nghiệm trả lời ngắn"
           description := str "Thí sinh điền đáp án số vào ô trống"
           points := []
           questions := (part3Of paragraphs images).map (fun pq => convertToQuestion pq 0)
           sectionType := QuestionType.short_answer }]
      else []) := rfl

-- ============================================================
-- C8
-- ============================================================

/-- C8: when no paragraph matches any section-header pattern, the Section
Boundary Detector returns start index 0 for section 1 and the paragraph
count for sections 2 and 3; consequently the section-2 and section-3 parsers
see empty ranges and produce nothing, every section entry of the output is
the multiple-choice section, and every parsed question comes from the
section-1 parser with encoded number `100 + authored_number` and the
section-1 part label. -/
theorem c8_no_headers (paragraphs : List ParagraphData) (images : List ImageData)
    (h : ∀ p ∈ paragraphs, noSectionHeader p.text = true) :
    detectSections (joinNl (paragraphs.map (fun p => p.text))) paragraphs =
      { part1Start := 0, part2Start := (paragraphs.length : Int),
        part3Start := (paragraphs.length : Int) } ∧
    part2Of paragraphs images = [] ∧
    part3Of paragraphs images = [] ∧
    (∀ s ∈ (parseAllQuestions paragraphs images).sections,
       s.sectionType = QuestionType.multiple_choice) ∧
    (∀ q ∈ (parseAllQuestions paragraphs images).questions,
       ∃ pq ∈ part1Of paragraphs images,
         q = convertToQuestion pq 0 ∧ q.number = 100 + pq.number ∧
         q.part = str "PHẦN 1") := by
  have hfold : ∀ (ips : List (Nat × ParagraphData)),
      (∀ ip ∈ ips, noSectionHeader ip.2.text = true) →
      ips.foldl (fun acc ip => detectStep ip acc)
        { part1Start := -1, part2Start := -1, part3Start := -1 } =
        { part1Start := -1, part2Start := -1, part3Start := -1 } := by
    intro ips hips
    induction ips with
    | nil => rfl
    | cons ip t iht =>
      rw [List.foldl_cons, detectStep_skip ip _ (hips ip (List.mem_cons_self ip t))]
      exact iht (fun x hx => hips x (List.mem_cons_of_mem ip hx))
  have henum : ∀ ip ∈ paragraphs.enum, noSectionHeader ip.2.text = true := by
    intro ip hip
    have hget : paragraphs[ip.1]? = some ip.2 :=
      List.mem_enum_iff_getElem?.mp hip
    exact h ip.2 (List.getElem?_mem hget)
  have hdet : detectSections (joinNl (paragraphs.map (fun p => p.text))) paragraphs =
      { part1Start := 0, part2Start := (paragraphs.length : Int),
        part3Start := (paragraphs.length : Int) } := by
    unfold detectSections
    rw [hfold paragraphs.enum henum]
    rfl
  have hp2 : part2Of paragraphs images = [] := by
    unfold part2Of
    rw [hdet]
    unfold parsePart2
    rw [if_pos]
    simp
  have hp3 : part3Of paragraphs images = [] := by
    unfold part3Of
    rw [hdet]
    unfold parsePart3
    rw [if_pos]
    simp
  refine ⟨hdet, hp2, hp3, ?_, ?_⟩
  · intro s hs
    rw [parseAll_sections_eq, hp2, hp3] at hs
    simp only [ne_eq, not_true_eq_false, if_false, if_neg, List.append_nil] at hs
    revert hs
    split
    · intro hs
      simp at hs
      subst hs
      rfl
    · intro hs
      simp at hs
  · intro q hq
    rw [parseAll_questions_eq, hp2, hp3] at hq
    simp only [List.map_nil, List.append_nil] at hq
    rcases List.mem_map.mp hq with ⟨pq, hpq, rfl⟩
    refine ⟨pq, hpq, rfl, ?_, ?_⟩
    · show pq.part * 100 + pq.number = 100 + pq.number
      rw [part1Of_part paragraphs images pq hpq]
    · show str "PHẦN " ++ natDigits pq.part = str "PHẦN 1"
      rw [part1Of_part paragraphs images pq hpq]
      decide

/-- Witness for C8 on input G (one question, no section headers). -/
theorem c8_witness :
    (∀ p ∈ psG, noSectionHeader p.text = true) ∧
    detectSections (joinNl (psG.map (fun p => p.text))) psG =
      { part1Start := 0, part2Start := (psG.length : Int),
        part3Start := (psG.length : Int) } ∧
    part2Of psG [] = [] ∧ part3Of psG [] = [] ∧
    (∀ s ∈ (parseAllQuestions psG []).sections,
       s.sectionType = QuestionType.multiple_choice) :=
  have h := c8_no_headers psG [] (by decide)
  ⟨by decide, h.1, h.2.1, h.2.2.1, h.2.2.2.1⟩

-- ============================================================
-- C7 machinery: a figure-marker paragraph matches no other marker
-- ============================================================

/-- The head of a figure-marker text is `H` or `h` (the anchored pattern
`^H(?:ình|inh)` under the `i` flag). -/
theorem hinhHead_cases {s : Str} (h : hinhHead s) :
    ∃ rest, (s = 'H' :: rest ∨ s = 'h' :: rest) := by
  cases s with
  | nil => rcases h with h | h <;> simp [hinhHead, List.head?] at h
  | cons c rest =>
    rcases h with h | h <;> simp [hinhHead, List.head?] at h <;> subst h
    · exact ⟨rest, Or.inl rfl⟩
    · exact ⟨rest, Or.inr rfl⟩

theorem hinh_qMatch_none {s : Str} (h : hinhHead s) : qMatch s = none := by
  rcases hinhHead_cases h with ⟨rest, hh | hh⟩ <;> subst hh <;>
    simp [qMatch, jsToLower]

theorem hinh_qTestCs_false {s : Str} (h : hinhHead s) : qTestCs s = false := by
  rcases hinhHead_cases h with ⟨rest, hh | hh⟩ <;> subst hh <;>
    simp [qTestCs]

theorem hinh_loiGiai_false {s : Str} (h : hinhHead s) : loiGiaiTest s = false := by
  rcases hinhHead_cases h with ⟨rest, hh | hh⟩ <;> subst hh <;>
    simp [loiGiaiTest, jsToLower]

theorem hinh_optMatch_none {s : Str} (h : hinhHead s) : optMatch s = none := by
  rcases hinhHead_cases h with ⟨rest, hh | hh⟩ <;> subst hh <;>
    simp [optMatch, dropWs, List.dropWhile, isJsWs, isLetterAD]

theorem hinh_ansMatch3_none {s : Str} (h : hinhHead s) : ansMatch3 s = none := by
  rcases hinhHead_cases h with ⟨rest, hh | hh⟩ <;> subst hh <;>
    simp [ansMatch3, List.dropWhile, isJsWs, jsToLower]

theorem hinh_ne_nil {s : Str} (h : hinhHead s) : s ≠ [] := by
  rcases hinhHead_cases h with ⟨rest, hh | hh⟩ <;> subst hh <;> simp

theorem p1Step_headerSkip (images : List ImageData) (st : P1State)
    (para : ParagraphData) (hskip : p1HeaderSkip para.text = true) :
    p1Step images st para = st := by
  unfold p1Step
  dsimp only
  split
  · rfl
  · simp [hskip]

theorem p1Step_hinh (images : List ImageData) (st : P1State) (para : ParagraphData)
    (q : ParsedQuestion)
    (hh : hinhHead para.text) (ht : hinhTest para.text = true)
    (hcq : st.currentQ = some q)
    (hskip : p1HeaderSkip para.text = false)
    (hchon : chonFind para.text = none) :
    p1Step images st para =
      { st with currentQ := some { q with images :=
          (if para.imageRIds ≠ [] ∧ st.inSolution = false then
            attachImages q.images para.imageRIds images
          else q.images) } } := by
  obtain ⟨qs, cq, cc, cb, isol, sb, ls, coi, sto⟩ := st
  simp only at hcq
  subst hcq
  unfold p1Step
  dsimp only
  rw [if_neg (by simp [hinh_ne_nil hh]), if_neg (by simp [hskip]),
    hinh_qMatch_none hh]
  dsimp only
  rw [if_neg (by simp [hinh_loiGiai_false hh]), hchon]
  dsimp only
  have hopt : (if cc = true then optMatch para.text else none) = none := by
    rw [hinh_optMatch_none hh]
    exact ite_self none
  rw [hopt]
  dsimp only
  cases isol <;> cases cc <;> cases sto <;> by_cases hr : para.imageRIds = [] <;>
    simp [attachIf, ht, hinh_ne_nil hh, hr, ite_self]

theorem p2Step_headerSkip (images : List ImageData) (st : P2State)
    (para : ParagraphData) (hskip : p23HeaderSkip para.text = true) :
    p2Step images st para = st := by
  unfold p2Step
  dsimp only
  split
  · rfl
  · simp [hskip]

theorem p2Step_hinh (images : List ImageData) (st : P2State) (para : ParagraphData)
    (q : ParsedQuestion)
    (hh : hinhHead para.text) (ht : hinhTest para.text = true)
    (hcq : st.currentQ = some q)
    (hskip : p23HeaderSkip para.text = false) :
    p2Step images st para =
      { st with currentQ := some { q with images :=
          (if para.imageRIds ≠ [] ∧ st.inSolution = false then
            attachImages q.images para.imageRIds images
          else q.images) } } := by
  obtain ⟨qs, cq, cc, cb, isol, sb, ts, csi, sts⟩ := st
  simp only at hcq
  subst hcq
  unfold p2Step
  dsimp only
  rw [if_neg (by simp [hinh_ne_nil hh]), if_neg (by simp [hskip]),
    hinh_qMatch_none hh]
  dsimp only
  rw [if_neg (by simp [hinh_loiGiai_false hh])]
  have hopt : (if cc = true then optMatch para.text else none) = none := by
    rw [hinh_optMatch_none hh]
    exact ite_self none
  rw [hopt]
  dsimp only
  cases isol <;> cases cc <;> cases sts <;> by_cases hr : para.imageRIds = [] <;>
    simp [attachIf, ht, hinh_ne_nil hh, hr, ite_self]

theorem p3Step_headerSkip (images : List ImageData) (st : P3State)
    (para : ParagraphData) (hskip : p23HeaderSkip para.text = true) :
    p3Step images st para = st := by
  unfold p3Step
  dsimp only
  split
  · rfl
  · simp [hskip]

theorem p3Step_hinh (images : List ImageData) (st : P3State) (para : ParagraphData)
    (q : ParsedQuestion)
    (hh : hinhHead para.text) (ht : hinhTest para.text = true)
    (hcq : st.currentQ = some q)
    (hskip : p23HeaderSkip para.text = false) :
    p3Step images st para =
      { st with currentQ := some { q with images :=
          (if para.imageRIds ≠ [] then
            attachImages q.images para.imageRIds images
          else q.images) } } := by
  obtain ⟨qs, cq, cc, cb, sb⟩ := st
  simp only at hcq
  subst hcq
  unfold p3Step
  dsimp only
  rw [if_neg (by simp [hinh_ne_nil hh]), if_neg (by simp [hskip]),
    hinh_qMatch_none hh]
  dsimp only
  rw [if_neg (by simp [hinh_loiGiai_false hh]), hinh_ansMatch3_none hh]
  dsimp only
  cases cc <;> by_cases hr : para.imageRIds = [] <;>
    simp [attachIf, ht, hinh_ne_nil hh, hr, ite_self, hinh_qTestCs_false hh,
      hinh_ansMatch3_none hh]

theorem p1Step_chon (images : List ImageData) (st : P1State) (para : ParagraphData)
    (q : ParsedQuestion) (l : Char)
    (hh : hinhHead para.text) (hcq : st.currentQ = some q)
    (hskip : p1HeaderSkip para.text = false)
    (hchon : chonFind para.text = some l) :
    p1Step images st para =
      { st with currentQ := some { q with correctAnswer := some [jsToUpper l] } } := by
  unfold p1Step
  dsimp only
  rw [if_neg (by simp [hinh_ne_nil hh]), if_neg (by simp [hskip]),
    hinh_qMatch_none hh]
  dsimp only
  rw [hcq]
  dsimp only
  rw [if_neg (by simp [hinh_loiGiai_false hh]), hchon]

-- ============================================================
-- C7
-- ============================================================

/-- Concrete part-1 state with an in-progress question. -/
theorem c7_counterexample :
    ((parsePart1WithUnderline psD 0 3 [img1]).map
      (fun q => (q.images, q.solution))) = [([], [])] ∧
    ((parsePart1WithUnderline psE 0 2 [img1]).map
      (fun q => (q.images, q.correctAnswer))) = [([], some (str "A"))] ∧
    ((parsePart1WithUnderline psF 0 2 [img1]).map
      (fun q => q.images)) = [[]] := by
  refine ⟨by decide, by decide, by decide⟩

/-- C7 amended: for every paragraph whose text begins with the figure marker
(`^Hình N`, so its first character is `H` or `h`) and every state with an
in-progress question: the paragraph's text is never appended to stem,
option, or solution content; and PROVIDED the text does not also match a
section-header pattern (in which case the paragraph is skipped entirely) or,
in section 1, the unanchored explicit-answer pattern (in which case it is
consumed as an explicit answer), its image relationship ids are attached to
the current question — EXCEPT that the section-1 and section-2 parsers drop
the images while collecting a solution.  Formally, each parser's step
function leaves the whole state unchanged apart from the current question's
image list, which receives the attachments exactly outside solution state
(sections 1 and 2) or unconditionally (section 3); on a header match the
step is the identity; on a section-1 explicit-answer match only the answer
changes. -/
theorem c7_amended :
    (∀ (images : List ImageData) (st : P1State) (para : ParagraphData)
       (q : ParsedQuestion),
      hinhHead para.text → hinhTest para.text = true → st.currentQ = some q →
      p1HeaderSkip para.text = false → chonFind para.text = none →
      p1Step images st para = { st with currentQ := some { q with images :=
        (if para.imageRIds ≠ [] ∧ st.inSolution = false then
          attachImages q.images para.imageRIds images
        else q.images) } }) ∧
    (∀ (images : List ImageData) (st : P1State) (para : ParagraphData),
      p1HeaderSkip para.text = true → p1Step images st para = st) ∧
    (∀ (images : List ImageData) (st : P1State) (para : ParagraphData)
       (q : ParsedQuestion) (l : Char),
      hinhHead para.text → st.currentQ = some q →
      p1HeaderSkip para.text = false → chonFind para.text = some l →
      p1Step images st para =
        { st with currentQ := some { q with correctAnswer := some [jsToUpper l] } }) ∧
    (∀ (images : List ImageData) (st : P2State) (para : ParagraphData)
       (q : ParsedQuestion),
      hinhHead para.text → hinhTest para.text = true → st.currentQ = some q →
      p23HeaderSkip para.text = false →
      p2Step images st para = { st with currentQ := some { q with images :=
        (if para.imageRIds ≠ [] ∧ st.inSolution = false then
          attachImages q.images para.imageRIds images
        else q.images) } }) ∧
    (∀ (images : List ImageData) (st : P2State) (para : ParagraphData),
      p23HeaderSkip para.text = true → p2Step images st para = st) ∧
    (∀ (images : List ImageData) (st : P3State) (para : ParagraphData)
       (q : ParsedQuestion),
      hinhHead para.text → hinhTest para.text = true → st.currentQ = some q →
      p23HeaderSkip para.text = false →
      p3Step images st para = { st with currentQ := some { q with images :=
        (if para.imageRIds ≠ [] then
          attachImages q.images para.imageRIds images
        else q.images) } }) ∧
    (∀ (images : List ImageData) (st : P3State) (para : ParagraphData),
      p23HeaderSkip para.text = true → p3Step images st para = st) := by
  refine ⟨?_, ?_, ?_, ?_, ?_, ?_, ?_⟩
  · intro images st para q hh ht hcq hskip hchon
    exact p1Step_hinh images st para q hh ht hcq hskip hchon
  · intro images st para hskip
    exact p1Step_headerSkip images st para hskip
  · intro images st para q l hh hcq hskip hchon
    exact p1Step_chon images st para q l hh hcq hskip hchon
  · intro images st para q hh ht hcq hskip
    exact p2Step_hinh images st para q hh ht hcq hskip
  · intro images st para hskip
    exact p2Step_headerSkip images st para hskip
  · intro images st para q hh ht hcq hskip
    exact p3Step_hinh images st para q hh ht hcq hskip
  · intro images st para hskip
    exact p3Step_headerSkip images st para hskip

/-- Witness for C7: a concrete figure paragraph with one image, processed in
a concrete part-1 state with an in-progress question. -/
theorem c7_witness :
    hinhHead paraHinh.text ∧ hinhTest paraHinh.text = true ∧
    p1StConcrete.currentQ = some (newQ1 1) ∧
    p1HeaderSkip paraHinh.text = false ∧ chonFind paraHinh.text = none ∧
    p1Step [img1] p1StConcrete paraHinh =
      { p1StConcrete with currentQ := some { newQ1 1 with images :=
        (if paraHinh.imageRIds ≠ [] ∧ p1StConcrete.inSolution = false then
          attachImages (newQ1 1).images paraHinh.imageRIds [img1]
        else (newQ1 1).images) } } := by
  refine ⟨Or.inl (by decide), by decide, by decide, by decide, by decide, ?_⟩
  exact c7_amended.1 [img1] p1StConcrete paraHinh (newQ1 1)
    (Or.inl (by decide)) (by decide) (by decide) (by decide) (by decide)

